import Mathlib

/-!
Verification of the go-wasm repository's varint codec, module decoder and
validating re-encoder (canonicalizer), shallowly embedded in Lean 4.

Conventions of the embedding:
* A byte stream (`io.Reader` over an in-memory buffer) is a `List Nat` of
  byte values; reading consumes a prefix and returns the remaining list.
* A Go `io.LimitedReader{R, N}` over an in-memory reader behaves exactly
  like a plain reader over the first `N` bytes, so a section's sub-reader
  is modelled as `input.take sz`; the bytes the sub-decoder consumed are
  recovered from the length difference, and `r.N` is `sz - consumed`.
* Machine integers are `Nat`/`Int`; `uint32` truncation is `% 2^32` and
  signed narrowing conversions go through two's-complement helpers.
* The decoder's sticky error (`decoder.err`) is an `Option DErr` threaded
  through every read operation, which also returns the new value of its
  out-parameter (unchanged when the operation is a no-op).
-/

namespace Wasm

/-- Errors of the decoding layer: `io.EOF`, `errOverflow`, `errMalform`,
`wasm: invalid ExternalKind`, `errInvOp`, `errOpEnd`,
`wasm: invalid section ID`. -/
inductive DErr where
  | eof
  | overflow
  | malform
  | invalidKind
  | invOp
  | opEnd
  | invalidSection
  deriving Repr, DecidableEq, Inhabited

/-- Interpret the low `w` bits of `bits` as a `w`-bit two's-complement
signed integer. -/
def toSigned (w : Nat) (bits : Nat) : Int :=
  if bits % 2 ^ w < 2 ^ (w - 1) then ((bits % 2 ^ w : Nat) : Int)
  else ((bits % 2 ^ w : Nat) : Int) - 2 ^ w

/-- Go's conversion of a (possibly wider) signed integer to a `w`-bit
signed integer: keep the low `w` bits, reinterpret as signed. -/
def wrapInt (w : Nat) (v : Int) : Int :=
  toSigned w (v.emod (2 ^ w)).toNat

/-- Loop of `uvarint` (the final codec revision): LEB128 unsigned decode
into a `uint32` accumulator.  `x` is the accumulator, `s` the bit offset,
`i` the number of bytes consumed so far.  Embeds `uvarint` from the
varint codec: overflow when the terminating byte arrives at index > 4, or
at index 4 with a value above 15; on success returns `(value, i+1)`;
an exhausted source yields the reader's EOF error with `i` bytes counted. -/
def uvarintAux : List Nat → Nat → Nat → Nat → (Nat × Nat × Option DErr) × List Nat
  | [], _, _, i => ((0, i, some .eof), [])
  | b :: rest, x, s, i =>
    if b < 0x80 then
      if i > 4 ∨ (i = 4 ∧ b > 15) then ((0, i, some .overflow), rest)
      else ((x ||| (b * 2 ^ s) % 2 ^ 32, i + 1, none), rest)
    else uvarintAux rest (x ||| ((b % 0x80) * 2 ^ s) % 2 ^ 32) (s + 7) (i + 1)

/-- `uvarint(r)`: returns `(value, bytesConsumed, error)` and the rest of
the reader. -/
def uvarint (r : List Nat) : (Nat × Nat × Option DErr) × List Nat :=
  uvarintAux r 0 0 0

/-- Loop of `varint` (the final codec revision): LEB128 signed decode into
an `int64`.  The accumulator `x` holds the two's-complement bits of the
`int64` so far.  On the terminating byte, bit 6 triggers sign extension
(`b |= 0x80` then `int64(int8(b)) << s`). -/
def varintAux : List Nat → Nat → Nat → Nat → (Int × Nat × Option DErr) × List Nat
  | [], _, _, i => ((0, i, some .eof), [])
  | b :: rest, x, s, i =>
    if b < 0x80 then
      if i > 9 ∨ (i = 9 ∧ b > 1) then ((0, i, some .overflow), rest)
      else
        let b' := if b &&& 0x40 ≠ 0 then b ||| 0x80 else b
        let se := if b' < 0x80 then b' else 2 ^ 64 - 0x100 + b'
        ((toSigned 64 (x ||| (se * 2 ^ s) % 2 ^ 64), i + 1, none), rest)
    else varintAux rest (x ||| ((b % 0x80) * 2 ^ s) % 2 ^ 64) (s + 7) (i + 1)

/-- `varint(r)`: returns `(value : int64, bytesConsumed, error)` and the
rest of the reader. -/
def varint (r : List Nat) : (Int × Nat × Option DErr) × List Nat :=
  varintAux r 0 0 0

/-- Loop of `varuint32.bytes()`: emits up to 5 LEB128 groups; the
continuation bit is set on a group iff the shifted-down value is
non-zero. -/
def bytesLoop : Nat → Nat → List Nat
  | 0, _ => []
  | fuel + 1, v =>
    if v / 0x80 = 0 then [v % 0x80]
    else (v % 0x80 + 0x80) :: bytesLoop fuel (v / 0x80)

/-- `varuint32.bytes()`: the canonical LEB128 encoding of a `uint32`
(the receiver is a `uint32`, so callers always pass `v < 2^32`). -/
def varuint32bytes (v : Nat) : List Nat :=
  bytesLoop 5 v

namespace OldDec

/-- Loop of the superseded first codec revision's `uvarint`: note the
64-bit overflow bound (`i > 9 || i == 9 && b > 1`) inside a `uint32`
decoder, and that the success count is `i`, not `i + 1`. -/
def uvarintAux : List Nat → Nat → Nat → Nat → (Nat × Nat × Option DErr) × List Nat
  | [], _, _, i => ((0, i, some .eof), [])
  | b :: rest, x, s, i =>
    if b < 0x80 then
      if i > 9 ∨ (i = 9 ∧ b > 1) then ((0, i, some .overflow), rest)
      else ((x ||| (b * 2 ^ s) % 2 ^ 32, i, none), rest)
    else uvarintAux rest (x ||| ((b % 0x80) * 2 ^ s) % 2 ^ 32) (s + 7) (i + 1)

/-- The superseded first codec revision's `uvarint`. -/
def uvarint (r : List Nat) : (Nat × Nat × Option DErr) × List Nat :=
  uvarintAux r 0 0 0

/-- The superseded first codec revision's `varint`: zigzag-style
(`v := int32(uv >> 1); if uv&1 != 0 { v = ^v }`). -/
def varint (r : List Nat) : (Int × Nat × Option DErr) × List Nat :=
  let ((uv, n, err), r') := OldDec.uvarint r
  let v : Int := (uv / 2 : Nat)
  let v := if uv % 2 ≠ 0 then -v - 1 else v
  ((v, n, err), r')

/-- The superseded general decoder's `readVarI7`
(src/unnamed/part_001 lines 138-144): unlike every other read operation
it does NOT check the stored error before reading, so it consumes input
and overwrites `d.err` even when an error is already stored. -/
def readVarI7 (e : Option DErr) (r : List Nat) (v : Int) :
    Option DErr × List Nat × Int :=
  let ((vv, n, err), r') := OldDec.varint r
  let e' := if err = none ∧ n ≠ 1 then some .malform else err
  (e', r', vv)

end OldDec

/-! ## Data model

The record and union types mirror the structs the decoders populate.
`ValueType` is the Go `int8`-backed enumeration; since `readValueType`
performs no validation, it is embedded as `Int`.  Strings are raw byte
lists, exactly as Go strings built by `readString`. -/

/-- `FuncType`: type-constructor tag, parameters and results. -/
structure FuncType where
  form : Int
  params : List Int
  results : List Int
  deriving Repr, DecidableEq, Inhabited

/-- `ResizableLimits`. -/
structure ResizableLimits where
  Flags : Nat
  Initial : Nat
  Maximum : Nat
  deriving Repr, DecidableEq, Inhabited

/-- `TableType`. -/
structure TableType where
  ElemType : Int
  Limits : ResizableLimits
  deriving Repr, DecidableEq, Inhabited

/-- `MemoryType`. -/
structure MemoryType where
  Limits : ResizableLimits
  deriving Repr, DecidableEq, Inhabited

/-- `GlobalType`. -/
structure GlobalType where
  ContentType : Int
  Mutability : Nat
  deriving Repr, DecidableEq, Inhabited

/-- The kind-dependent payload of `ImportEntry.Typ` (an `interface{}` in
the source — a tagged union; `unset` is the nil interface value). -/
inductive ImportTyp where
  | unset
  | funcIdx (idx : Nat)
  | table (tt : TableType)
  | mem (mt : MemoryType)
  | global (gt : GlobalType)
  deriving Repr, DecidableEq, Inhabited

/-- `ImportEntry`. `Kind` is the raw `ExternalKind` byte. -/
structure ImportEntry where
  Module : List Nat
  Field : List Nat
  Kind : Nat
  Typ : ImportTyp
  deriving Repr, DecidableEq, Inhabited

/-- `ExportEntry`. -/
structure ExportEntry where
  Field : List Nat
  Kind : Nat
  Index : Nat
  deriving Repr, DecidableEq, Inhabited

/-- `TypeSection`. -/
structure TypeSection where
  Types : List FuncType
  deriving Repr, DecidableEq, Inhabited

/-- `ImportSection`. -/
structure ImportSection where
  Imports : List ImportEntry
  deriving Repr, DecidableEq, Inhabited

/-- `FunctionSection` (the revision with exported field `Types`). -/
structure FunctionSection where
  Types : List Nat
  deriving Repr, DecidableEq, Inhabited

/-- `ExportSection`. -/
structure ExportSection where
  Exports : List ExportEntry
  deriving Repr, DecidableEq, Inhabited

/-- ASCII bytes of the Go string literal under the same name. -/
def mainName : List Nat := [109, 97, 105, 110]

/-- ASCII bytes of the Go string literal under the same name. -/
def memoryName : List Nat := [109, 101, 109, 111, 114, 121]

/-! ## Decoder primitives (final revision, from vmodule.go)

Every operation takes the sticky error, the reader view, and the current
value of its out-parameter, and returns the new error, the remaining
reader, and the (possibly unchanged) out-parameter value. -/

/-- `decoder.readVarI7`: guarded; decodes a signed varint, requires
exactly one byte, narrows `int64` to `int32`. -/
def readVarI7 (e : Option DErr) (r : List Nat) (v : Int) :
    Option DErr × List Nat × Int :=
  match e with
  | some _ => (e, r, v)
  | none =>
    let ((vv, n, err), r') := varint r
    let e' := if err = none ∧ n ≠ 1 then some .malform else err
    (e', r', wrapInt 32 vv)

/-- `decoder.readVarI32`: guarded; narrows `int64` to `int32`. -/
def readVarI32 (e : Option DErr) (r : List Nat) (v : Int) :
    Option DErr × List Nat × Int :=
  match e with
  | some _ => (e, r, v)
  | none =>
    let ((vv, _n, err), r') := varint r
    (err, r', wrapInt 32 vv)

/-- `decoder.readVarU7`: guarded; decodes an unsigned varint and requires
exactly one byte. -/
def readVarU7 (e : Option DErr) (r : List Nat) (v : Nat) :
    Option DErr × List Nat × Nat :=
  match e with
  | some _ => (e, r, v)
  | none =>
    let ((x, n, err), r') := uvarint r
    let e' := if err = none ∧ n ≠ 1 then some .malform else err
    (e', r', x)

/-- `decoder.readVarU1` simply forwards to `readVarU7`. -/
def readVarU1 (e : Option DErr) (r : List Nat) (v : Nat) :
    Option DErr × List Nat × Nat :=
  readVarU7 e r v

/-- `decoder.readVarU32`: guarded. -/
def readVarU32 (e : Option DErr) (r : List Nat) (v : Nat) :
    Option DErr × List Nat × Nat :=
  match e with
  | some _ => (e, r, v)
  | none =>
    let ((x, _n, err), r') := uvarint r
    (err, r', x)

/-- `decoder.read`: guarded; a single `Read` into a fresh zeroed buffer of
length `k`.  An in-memory reader fills `min k r.length` bytes (a short
read is not an error) and reports EOF only when it has no bytes at all;
the returned list is the buffer's final contents. -/
def readRaw (e : Option DErr) (r : List Nat) (k : Nat) :
    Option DErr × List Nat × List Nat :=
  match e with
  | some _ => (e, r, List.replicate k 0)
  | none =>
    if k = 0 then (none, r, [])
    else if r = [] then (some .eof, r, List.replicate k 0)
    else (none, r.drop k, r.take k ++ List.replicate (k - r.length) 0)

/-- `decoder.readString`: guarded; length prefix then raw bytes (the
string is assigned from the buffer even when the raw read fails). -/
def readString (e : Option DErr) (r : List Nat) (s : List Nat) :
    Option DErr × List Nat × List Nat :=
  match e with
  | some _ => (e, r, s)
  | none =>
    let (e1, r1, sz) := readVarU32 none r 0
    match e1 with
    | some _ => (e1, r1, s)
    | none =>
      let (e2, r2, buf) := readRaw none r1 sz
      (e2, r2, buf)

/-- `decoder.readValueType`: guarded; the decoded `int32` is narrowed to
the `int8`-backed `ValueType` without validation. -/
def readValueType (e : Option DErr) (r : List Nat) (vt : Int) :
    Option DErr × List Nat × Int :=
  match e with
  | some _ => (e, r, vt)
  | none =>
    let (e1, r1, v) := readVarI7 none r 0
    (e1, r1, wrapInt 8 v)

/-- `decoder.readExternalKind`: guarded; one raw byte. -/
def readExternalKind (e : Option DErr) (r : List Nat) (ek : Nat) :
    Option DErr × List Nat × Nat :=
  match e with
  | some _ => (e, r, ek)
  | none =>
    let (e1, r1, buf) := readRaw none r 1
    (e1, r1, buf.headD 0)

/-! ## Record and section sub-decoders (final revision, from vmodule.go)

Each `make([]T, n)`-then-fill loop is modelled by a recursive function on
the count; element reads are guarded, so after an error the remaining
elements keep their zero values, exactly like the Go slices. -/

/-- The fill loop over `ft.params` / `ft.results`. -/
def readValueTypes (e : Option DErr) (r : List Nat) :
    Nat → Option DErr × List Nat × List Int
  | 0 => (e, r, [])
  | n + 1 =>
    let (e1, r1, v) := readValueType e r 0
    let (e2, r2, vs) := readValueTypes e1 r1 n
    (e2, r2, v :: vs)

/-- `decoder.readFuncType` on a freshly zeroed `FuncType`. -/
def readFuncType (e : Option DErr) (r : List Nat) :
    Option DErr × List Nat × FuncType :=
  match e with
  | some _ => (e, r, default)
  | none =>
    let (e1, r1, form) := readValueType none r 0
    let (e2, r2, nParams) := readVarU32 e1 r1 0
    match e2 with
    | some _ => (e2, r2, { form := form, params := [], results := [] })
    | none =>
      let (e3, r3, params) := readValueTypes none r2 nParams
      let (e4, r4, nResults) := readVarU32 e3 r3 0
      match e4 with
      | some _ => (e4, r4, { form := form, params := params, results := [] })
      | none =>
        let (e5, r5, results) := readValueTypes none r4 nResults
        (e5, r5, { form := form, params := params, results := results })

/-- The fill loop over `s.Types` in `readTypeSection`. -/
def readFuncTypes (e : Option DErr) (r : List Nat) :
    Nat → Option DErr × List Nat × List FuncType
  | 0 => (e, r, [])
  | n + 1 =>
    let (e1, r1, ft) := readFuncType e r
    let (e2, r2, fts) := readFuncTypes e1 r1 n
    (e2, r2, ft :: fts)

/-- `decoder.readTypeSection`: count then `FuncType` records; on an early
count error the caller's section value is untouched. -/
def readTypeSection (e : Option DErr) (r : List Nat) (s : TypeSection) :
    Option DErr × List Nat × TypeSection :=
  let (e1, r1, n) := readVarU32 e r 0
  match e1 with
  | some _ => (e1, r1, s)
  | none =>
    let (e2, r2, ts) := readFuncTypes none r1 n
    (e2, r2, ⟨ts⟩)

/-- `decoder.readResizableLimits`. -/
def readResizableLimits (e : Option DErr) (r : List Nat) :
    Option DErr × List Nat × ResizableLimits :=
  match e with
  | some _ => (e, r, default)
  | none =>
    let (e1, r1, flags) := readVarU32 none r 0
    let (e2, r2, ini) := readVarU32 e1 r1 0
    if flags &&& 1 ≠ 0 then
      let (e3, r3, mx) := readVarU32 e2 r2 0
      (e3, r3, ⟨flags, ini, mx⟩)
    else (e2, r2, ⟨flags, ini, 0⟩)

/-- `decoder.readElemType`. -/
def readElemType (e : Option DErr) (r : List Nat) :
    Option DErr × List Nat × Int :=
  match e with
  | some _ => (e, r, 0)
  | none =>
    let (e1, r1, v) := readVarI7 none r 0
    (e1, r1, v)

/-- `decoder.readTableType`. -/
def readTableType (e : Option DErr) (r : List Nat) :
    Option DErr × List Nat × TableType :=
  match e with
  | some _ => (e, r, default)
  | none =>
    let (e1, r1, et) := readElemType none r
    let (e2, r2, lim) := readResizableLimits e1 r1
    (e2, r2, ⟨et, lim⟩)

/-- `decoder.readMemoryType`. -/
def readMemoryType (e : Option DErr) (r : List Nat) :
    Option DErr × List Nat × MemoryType :=
  match e with
  | some _ => (e, r, default)
  | none =>
    let (e1, r1, lim) := readResizableLimits none r
    (e1, r1, ⟨lim⟩)

/-- `decoder.readGlobalType`. -/
def readGlobalType (e : Option DErr) (r : List Nat) :
    Option DErr × List Nat × GlobalType :=
  match e with
  | some _ => (e, r, default)
  | none =>
    let (e1, r1, ct) := readValueType none r 0
    let (e2, r2, mu) := readVarU1 e1 r1 0
    (e2, r2, ⟨ct, mu⟩)

/-- `decoder.readImportEntry` on a freshly zeroed `ImportEntry`; the
switch on the kind byte dispatches to the payload decoder, and an
out-of-range kind sets the invalid-ExternalKind error. -/
def readImportEntry (e : Option DErr) (r : List Nat) :
    Option DErr × List Nat × ImportEntry :=
  match e with
  | some _ => (e, r, default)
  | none =>
    let (e1, r1, modName) := readString none r []
    let (e2, r2, fld) := readString e1 r1 []
    let (e3, r3, kind) := readExternalKind e2 r2 0
    if kind = 0 then
      let (e4, r4, idx) := readVarU32 e3 r3 0
      (e4, r4, ⟨modName, fld, kind, .funcIdx idx⟩)
    else if kind = 1 then
      let (e4, r4, tt) := readTableType e3 r3
      (e4, r4, ⟨modName, fld, kind, .table tt⟩)
    else if kind = 2 then
      let (e4, r4, mt) := readMemoryType e3 r3
      (e4, r4, ⟨modName, fld, kind, .mem mt⟩)
    else if kind = 3 then
      let (e4, r4, gt) := readGlobalType e3 r3
      (e4, r4, ⟨modName, fld, kind, .global gt⟩)
    else (some .invalidKind, r3, ⟨modName, fld, kind, .unset⟩)

/-- The fill loop over `s.Imports`. -/
def readImportEntries (e : Option DErr) (r : List Nat) :
    Nat → Option DErr × List Nat × List ImportEntry
  | 0 => (e, r, [])
  | n + 1 =>
    let (e1, r1, ie) := readImportEntry e r
    let (e2, r2, ies) := readImportEntries e1 r1 n
    (e2, r2, ie :: ies)

/-- `decoder.readImportSection`. -/
def readImportSection (e : Option DErr) (r : List Nat) (s : ImportSection) :
    Option DErr × List Nat × ImportSection :=
  let (e1, r1, n) := readVarU32 e r 0
  match e1 with
  | some _ => (e1, r1, s)
  | none =>
    let (e2, r2, ies) := readImportEntries none r1 n
    (e2, r2, ⟨ies⟩)

/-- The fill loop over `s.Types` in `readFunctionSection`. -/
def readU32s (e : Option DErr) (r : List Nat) :
    Nat → Option DErr × List Nat × List Nat
  | 0 => (e, r, [])
  | n + 1 =>
    let (e1, r1, v) := readVarU32 e r 0
    let (e2, r2, vs) := readU32s e1 r1 n
    (e2, r2, v :: vs)

/-- `decoder.readFunctionSection`. -/
def readFunctionSection (e : Option DErr) (r : List Nat) (s : FunctionSection) :
    Option DErr × List Nat × FunctionSection :=
  let (e1, r1, n) := readVarU32 e r 0
  match e1 with
  | some _ => (e1, r1, s)
  | none =>
    let (e2, r2, ts) := readU32s none r1 n
    (e2, r2, ⟨ts⟩)

/-- `decoder.readExportEntry` on a freshly zeroed `ExportEntry`. -/
def readExportEntry (e : Option DErr) (r : List Nat) :
    Option DErr × List Nat × ExportEntry :=
  match e with
  | some _ => (e, r, default)
  | none =>
    let (e1, r1, fld) := readString none r []
    let (e2, r2, kind) := readExternalKind e1 r1 0
    let (e3, r3, idx) := readVarU32 e2 r2 0
    (e3, r3, ⟨fld, kind, idx⟩)

/-- The fill loop over `s.Exports`. -/
def readExportEntries (e : Option DErr) (r : List Nat) :
    Nat → Option DErr × List Nat × List ExportEntry
  | 0 => (e, r, [])
  | n + 1 =>
    let (e1, r1, ee) := readExportEntry e r
    let (e2, r2, ees) := readExportEntries e1 r1 n
    (e2, r2, ee :: ees)

/-- `decoder.readExportSection`. -/
def readExportSection (e : Option DErr) (r : List Nat) (s : ExportSection) :
    Option DErr × List Nat × ExportSection :=
  let (e1, r1, n) := readVarU32 e r 0
  match e1 with
  | some _ => (e1, r1, s)
  | none =>
    let (e2, r2, ees) := readExportEntries none r1 n
    (e2, r2, ⟨ees⟩)

/-! ## The validating re-encoder (`ValModule`) -/

/-- `ValModule`: the canonicalizer's accumulated state. -/
structure ValModule where
  OnlyValidate : Bool
  typ : TypeSection
  imp : ImportSection
  exp : ExportSection
  fn : FunctionSection
  startEntry : Bool
  bCustom : Bool
  buff : List Nat
  deriving Repr, DecidableEq, Inhabited

/-- A freshly declared (zero-valued) `ValModule` with the given
`OnlyValidate` flag. -/
def vmZero (b : Bool) : ValModule :=
  { OnlyValidate := b, typ := ⟨[]⟩, imp := ⟨[]⟩, exp := ⟨[]⟩, fn := ⟨[]⟩,
    startEntry := false, bCustom := false, buff := [] }

/-- The filter condition of `readSection`'s export loop: field "main"
with function kind, or field "memory" with memory kind (the index is not
inspected). -/
def expMatch (ep : ExportEntry) : Bool :=
  (ep.Field == mainName && ep.Kind == 0) || (ep.Field == memoryName && ep.Kind == 2)

/-- The export filter loop of `ValModule.readSection`: appends matching
entries to the accumulated list and breaks once its length reaches 2. -/
def filterExports (acc : List ExportEntry) : List ExportEntry → List ExportEntry
  | [] => acc
  | ep :: rest =>
    if expMatch ep then
      if (acc ++ [ep]).length ≥ 2 then acc ++ [ep]
      else filterExports (acc ++ [ep]) rest
    else filterExports acc rest

/-- Outcomes of `ValModule.readSection` other than success: a raw
decoder error from the identifier read (returned as-is, `io.EOF`
included), `errReadSection`, `errExports`, or `crash` — the run-time
panic of the trailing-bytes branch, whose log call invokes `sec.ID()` on
the local `sec Section` interface that is declared but never assigned
(nil-interface method call); the total embedding carries the panic in
the error channel. -/
inductive RSErr where
  | raw (e : DErr)
  | readSection
  | exports
  | crash
  deriving Repr, DecidableEq

/-- The per-entry encoding loop building `obuf` in `readSection`'s
Export case: one byte of name length (checked against 64 first), the name
bytes, one kind byte, and the varint-encoded index. -/
def encodeExportEntries : List ExportEntry → Except RSErr (List Nat)
  | [] => .ok []
  | ep :: rest =>
    if ep.Field.length > 64 then .error .readSection
    else
      match encodeExportEntries rest with
      | .error er => .error er
      | .ok tl =>
        .ok ((ep.Field.length % 256 :: ep.Field ++ [ep.Kind % 256]
              ++ varuint32bytes (ep.Index % 2 ^ 32)) ++ tl)

/-- The Export-section re-encode block of `ValModule.readSection`:
returns the bytes to append to the output buffer (`none` when the
filtered list encodes to nothing), `errReadSection` on an over-long name,
`errExports` when more than 64 entries would be emitted. -/
def encodeExports (id : Nat) (exps : List ExportEntry) :
    Except RSErr (Option (List Nat)) :=
  match encodeExportEntries exps with
  | .error er => .error er
  | .ok obuf =>
    if obuf.length > 0 then
      if exps.length > 64 then .error .exports
      else .ok (some (id % 256 :: varuint32bytes ((obuf.length + 1) % 2 ^ 32)
                      ++ [exps.length % 256] ++ obuf))
    else .ok none

/-- The first `switch SectionID(id)` of `ValModule.readSection`: run the
matching sub-decoder over the section's limited view and update the
accumulated fields (Export sections are filtered into `vm.exp`); every
other identifier reads and discards `sz` bytes. -/
def subDecode (vm : ValModule) (id sz : Nat) (view : List Nat) :
    Option DErr × List Nat × ValModule :=
  if id = 1 then
    let (e, v', s) := readTypeSection none view vm.typ
    (e, v', { vm with typ := s })
  else if id = 2 then
    let (e, v', s) := readImportSection none view vm.imp
    (e, v', { vm with imp := s })
  else if id = 3 then
    let (e, v', s) := readFunctionSection none view vm.fn
    (e, v', { vm with fn := s })
  else if id = 7 then
    let (e, v', s) := readExportSection none view ⟨[]⟩
    (e, v', { vm with exp := ⟨filterExports vm.exp.Exports s.Exports⟩ })
  else
    let (e, v', _) := readRaw none view sz
    (e, v', vm)

/-- The second `switch SectionID(id)` of `ValModule.readSection`, after
the trailing-bytes check passed: flag Custom sections, re-encode the
filtered exports for Export sections, flag Start sections and (through
the `fallthrough`) append their bytes like any other default section. -/
def emitSection (vm3 : ValModule) (id : Nat) (out rest : List Nat) :
    Except RSErr (ValModule × List Nat × Nat) :=
  if id = 0 then .ok ({ vm3 with bCustom := true }, rest, id)
  else if id = 7 then
    if vm3.OnlyValidate then .ok (vm3, rest, id)
    else
      match encodeExports id vm3.exp.Exports with
      | .error er => .error er
      | .ok none => .ok (vm3, rest, id)
      | .ok (some delta) =>
        .ok ({ vm3 with buff := vm3.buff ++ delta }, rest, id)
  else if id = 8 then
    if vm3.OnlyValidate then
      .ok ({ vm3 with startEntry := true }, rest, id)
    else
      .ok ({ vm3 with startEntry := true, buff := vm3.buff ++ out }, rest, id)
  else if vm3.OnlyValidate then .ok (vm3, rest, id)
  else .ok ({ vm3 with buff := vm3.buff ++ out }, rest, id)

/-- `ValModule.readSection`: reads one section from the stream.  On
success it returns the updated module, the remaining stream, and the
section identifier (exposed for the theorems; the Go function keeps it
local).  The `TeeReader` capture `out` is the consumed prefix of the
stream; the body is staged into `subDecode` (first switch) and
`emitSection` (second switch), mirroring the source's control flow.
When the sub-decoder leaves the declared length partly unconsumed
(`r.N != 0`), the Go function panics: its log statement calls `sec.ID()`
on the never-assigned nil interface `sec`, so instead of the intended
`errReadSection` return the program crashes — modeled as
`.error .crash`. -/
def readSection (vm : ValModule) (input : List Nat) :
    Except RSErr (ValModule × List Nat × Nat) :=
  match readVarU7 none input 0 with
  | (some er, _, _) => .error (.raw er)
  | (none, r1, id) =>
    match readVarU32 none r1 0 with
    | (some _, _, _) => .error .readSection
    | (none, r2, sz) =>
      match subDecode vm id sz (r2.take sz) with
      | (some _, _, _) => .error .readSection
      | (none, viewR, vm3) =>
        if sz - ((r2.take sz).length - viewR.length) ≠ 0 then .error .crash
        else
          emitSection vm3 id
            (input.take (input.length - r2.length)
              ++ r2.take ((r2.take sz).length - viewR.length))
            (r2.drop ((r2.take sz).length - viewR.length))

/-- Outcomes of `ValModule.ReadValModule` other than success; `crash` is
the nil-interface panic of `readSection`'s trailing-bytes branch, which
propagates out of `ReadValModule` (nothing recovers it). -/
inductive VMErr where
  | head
  | raw (e : DErr)
  | readSection
  | exports
  | crash
  deriving Repr, DecidableEq

/-- The section loop of `ReadValModule`: `io.EOF` from the identifier
read is the normal termination, any other error aborts.  The second
component counts the Export sections processed (a ghost observation used
by the theorems).  Each successful iteration consumes at least the
identifier byte, so a fuel of `input.length + 1` never runs out; the
fuel-exhausted case returns like the loop's break. -/
def ReadValModuleAux : Nat → ValModule → List Nat → Nat →
    Except VMErr (ValModule × Nat)
  | 0, vm, _, cnt => .ok (vm, cnt)
  | fuel + 1, vm, input, cnt =>
    match readSection vm input with
    | .error (.raw .eof) => .ok (vm, cnt)
    | .error (.raw er) => .error (.raw er)
    | .error .readSection => .error .readSection
    | .error .exports => .error .exports
    | .error .crash => .error .crash
    | .ok (vm', rest, id) =>
      ReadValModuleAux fuel vm' rest (if id = 7 then cnt + 1 else cnt)

/-- The fixed 4-byte magic constant checked by `readHeader`.
Modelled from the spec: the declaration file carrying `magicWASM` is not
in the sources; the spec fixes "4 magic bytes" for the binary module
format, whose standard value is `"\0asm"`. -/
def magicWASM : List Nat := [0, 97, 115, 109]

/-- `ValModule.ReadValModule` with the ghost Export-section count:
8-byte header (checked magic), seed the buffer with it, then the section
loop. -/
def ReadValModuleC (vm : ValModule) (inbuf : List Nat) :
    Except VMErr (ValModule × Nat) :=
  if inbuf.length < 8 then .error .head
  else if inbuf.take 4 ≠ magicWASM then .error .head
  else ReadValModuleAux (inbuf.length + 1) { vm with buff := inbuf.take 8 }
    (inbuf.drop 8) 0

/-- `ValModule.ReadValModule`. -/
def ReadValModule (vm : ValModule) (inbuf : List Nat) :
    Except VMErr ValModule :=
  (ReadValModuleC vm inbuf).map (fun p => p.1)

/-- `ValModule.Bytes`. -/
def Bytes (vm : ValModule) : List Nat :=
  vm.buff

/-- `ValModule.findExport`. -/
def findExport (vm : ValModule) (nam : List Nat) : Option ExportEntry :=
  vm.exp.Exports.find? (fun ep => ep.Field == nam)

/-- Result of `ValModule.getFuncSig`: the Go function returns a nil
pointer in its two guarded cases, but the final access
`vm.typ.Types[tyIdx]` is not bounds-checked, so the total embedding
returns `oob` where Go would panic with an index-out-of-range. -/
inductive SigRes where
  | null
  | oob
  | sig (ft : FuncType)
  deriving Repr, DecidableEq

/-- `ValModule.getFuncSig`. -/
def getFuncSig (vm : ValModule) (idx : Nat) : SigRes :=
  if idx < vm.imp.Imports.length then .null
  else if idx - vm.imp.Imports.length ≥ vm.fn.Types.length then .null
  else
    let tyIdx := vm.fn.Types.getD (idx - vm.imp.Imports.length) 0
    if tyIdx < vm.typ.Types.length then .sig (vm.typ.Types.getD tyIdx default)
    else .oob

/-- `funcMap`: expected parameter and result value types of an
allow-listed host function. -/
structure funcMap where
  params : List Int := []
  results : List Int := []
  deriving Repr, DecidableEq, Inhabited

/-- `dbgMap`: the "debug" host module's allow-list (keys are the ASCII
bytes of the Go map keys; i32 is -1). -/
def dbgMap : List (List Nat × funcMap) :=
  [([112, 114, 105, 110, 116], { params := [-1, -1] }),
   ([112, 114, 105, 110, 116, 77, 101, 109], { params := [-1, -1] }),
   ([112, 114, 105, 110, 116, 77, 101, 109, 72, 101, 120], { params := [-1, -1] }),
   ([112, 114, 105, 110, 116, 83, 116, 111, 114, 97, 103, 101], { params := [-1] }),
   ([112, 114, 105, 110, 116, 83, 116, 111, 114, 97, 103, 101, 72, 101, 120],
    { params := [-1] })]

/-- `ethMap`: the "ethereum" host module's allow-list (i32 is -1, i64 is
-2). -/
def ethMap : List (List Nat × funcMap) :=
  [([102, 105, 110, 105, 115, 104], { params := [-1, -1] }),
   ([114, 101, 118, 101, 114, 116], { params := [-1, -1] }),
   ([103, 101, 116, 65, 100, 100, 114, 101, 115, 115], { params := [-1] }),
   ([103, 101, 116, 69, 120, 116, 101, 114, 110, 97, 108, 66, 97, 108, 97, 110,
     99, 101], { params := [-1, -1] }),
   ([115, 116, 111, 114, 97, 103, 101, 83, 116, 111, 114, 101],
    { params := [-1, -1] }),
   ([115, 116, 111, 114, 97, 103, 101, 76, 111, 97, 100], { params := [-1, -1] }),
   ([103, 101, 116, 67, 97, 108, 108, 101, 114], { params := [-1] }),
   ([103, 101, 116, 84, 120, 79, 114, 105, 103, 105, 110], { params := [-1] }),
   ([108, 111, 103], { params := [-1, -1, -1, -1, -1, -1, -1] }),
   ([115, 101, 108, 102, 68, 101, 115, 116, 114, 117, 99, 116], { params := [-1] }),
   ([117, 115, 101, 71, 97, 115], { params := [-2] }),
   ([103, 101, 116, 67, 97, 108, 108, 86, 97, 108, 117, 101], { params := [-1] }),
   ([103, 101, 116, 67, 97, 108, 108, 68, 97, 116, 97, 83, 105, 122, 101],
    { results := [-1] }),
   ([99, 97, 108, 108, 68, 97, 116, 97, 67, 111, 112, 121],
    { params := [-1, -1, -1] }),
   ([103, 101, 116, 67, 111, 100, 101, 83, 105, 122, 101], { results := [-1] }),
   ([99, 111, 100, 101, 67, 111, 112, 121], { params := [-1, -1, -1] }),
   ([103, 101, 116, 71, 97, 115, 76, 101, 102, 116], { results := [-2] }),
   ([103, 101, 116, 66, 108, 111, 99, 107, 71, 97, 115, 76, 105, 109, 105, 116],
    { results := [-2] }),
   ([103, 101, 116, 84, 120, 71, 97, 115, 80, 114, 105, 99, 101],
    { params := [-1] }),
   ([103, 101, 116, 66, 108, 111, 99, 107, 78, 117, 109, 98, 101, 114],
    { results := [-2] }),
   ([103, 101, 116, 66, 108, 111, 99, 107, 84, 105, 109, 101, 115, 116, 97, 109,
     112], { results := [-2] })]

/-- ASCII bytes of the Go string literal under the same name. -/
def debugName : List Nat := [100, 101, 98, 117, 103]

/-- ASCII bytes of the Go string literal under the same name. -/
def ethereumName : List Nat := [101, 116, 104, 101, 114, 101, 117, 109]

/-- `eqValues`: length check then element-wise comparison. -/
def eqValues : List Int → List Int → Bool
  | [], [] => true
  | a :: as, b :: bs => a == b && eqValues as bs
  | _, _ => false

/-- `solveImport`: look the field up in the module's allow-list and
compare parameter and result types exactly. -/
def solveImport (modName fld : List Nat) (typ : FuncType) : Bool :=
  let verify := fun (mm : List (List Nat × funcMap)) =>
    match List.lookup fld mm with
    | none => false
    | some sig => eqValues typ.params sig.params && eqValues typ.results sig.results
  if modName = debugName then verify dbgMap
  else if modName ≠ ethereumName then false
  else verify ethMap

/-- Errors of `ValModule.Validate`. -/
inductive VErr where
  | hasStart
  | hasCustom
  | exports
  | expMiss
  | expError
  | importNotFunc
  | importFunc
  deriving Repr, DecidableEq

/-- Result of `ValModule.Validate`: an error, success, or the
index-out-of-range crash `getFuncSig` can hit. -/
inductive VRes where
  | ok
  | err (e : VErr)
  | crashes
  deriving Repr, DecidableEq

/-- The import-checking loop at the end of `Validate`. -/
def checkImports (vm : ValModule) : List ImportEntry → VRes
  | [] => .ok
  | imp :: rest =>
    if imp.Kind ≠ 0 then .err .importNotFunc
    else
      match imp.Typ with
      | .funcIdx idx =>
        if idx ≥ vm.typ.Types.length then .err .importFunc
        else if ¬ solveImport imp.Module imp.Field (vm.typ.Types.getD idx default)
        then .err .importFunc
        else checkImports vm rest
      | _ => .err .importFunc

/-- `ValModule.Validate`: the ordered sequence of predicates. -/
def Validate (vm : ValModule) : VRes :=
  if vm.startEntry then .err .hasStart
  else if vm.OnlyValidate ∧ vm.bCustom then .err .hasCustom
  else if vm.exp.Exports.length ≠ 2 then .err .exports
  else
    match findExport vm mainName with
    | none => .err .expMiss
    | some ep =>
      if ep.Kind ≠ 0 then .err .expError
      else
        match getFuncSig vm ep.Index with
        | .oob => .crashes
        | .null => .err .expError
        | .sig typ =>
          if typ.params.length ≠ 0 ∨ typ.results.length ≠ 0 then .err .expError
          else
            match findExport vm memoryName with
            | none => .err .expMiss
            | some mp =>
              if mp.Kind ≠ 2 ∨ mp.Index ≠ 0 then .err .expError
              else checkImports vm vm.imp.Imports

/-! ## The general-purpose module decoder (`decoder.readSection` and its
extra sub-decoders, from the lenient decoder file) -/

/-- `FunctionNames`: one (function index, name) pair of the custom name
section. -/
structure FunctionNames where
  Idx : Nat
  Name : List Nat
  deriving Repr, DecidableEq, Inhabited

/-- `NameSection` (the decoded Custom section). -/
structure NameSection where
  Name : List Nat
  Size : Nat
  ModName : List Nat
  FuncName : List FunctionNames
  deriving Repr, DecidableEq, Inhabited

/-- `StartSection`. -/
structure StartSection where
  Index : Nat
  deriving Repr, DecidableEq, Inhabited

/-- `InitExpr` as used by `readInitExpr` (the struct declaration of this
revision is not among the sources; the field follows
`d.readVarI32(r, &ie.Expr)`). -/
structure InitExpr where
  Expr : Int
  deriving Repr, DecidableEq, Inhabited

/-- `GlobalVariable`. -/
structure GlobalVariable where
  «Type» : GlobalType
  Init : InitExpr
  deriving Repr, DecidableEq, Inhabited

/-- `ElemSegment`. -/
structure ElemSegment where
  Index : Nat
  Offset : InitExpr
  Elems : List Nat
  deriving Repr, DecidableEq, Inhabited

/-- `LocalEntry`. -/
structure LocalEntry where
  Count : Nat
  «Type» : Int
  deriving Repr, DecidableEq, Inhabited

/-- `FunctionBody`. -/
structure FunctionBody where
  BodySize : Nat
  Locals : List LocalEntry
  Code : List Nat
  deriving Repr, DecidableEq, Inhabited

/-- `DataSegment`. -/
structure DataSegment where
  Index : Nat
  Offset : InitExpr
  Data : List Nat
  deriving Repr, DecidableEq, Inhabited

/-- The `Section` interface value produced by the general decoder's
`readSection`, one constructor per section identifier. -/
inductive GSection where
  | name (s : NameSection)
  | types (s : TypeSection)
  | imports (s : ImportSection)
  | functions (s : FunctionSection)
  | tables (s : List TableType)
  | memories (s : List MemoryType)
  | globals (s : List GlobalVariable)
  | exports (s : ExportSection)
  | start (s : StartSection)
  | elements (s : List ElemSegment)
  | code (s : List FunctionBody)
  | data (s : List DataSegment)
  deriving Repr, DecidableEq, Inhabited

/-- Opcode constants used by `readInitExpr`.
Modelled from the spec: the opcode declaration file is not among the
sources; the spec restricts init expressions to `i32.const`, `i64.const`
and the terminating `end` opcode, whose format values are 0x41, 0x42 and
0x0b. -/
def OpI32Const : Nat := 0x41

/-- See `OpI32Const`. -/
def OpI64Const : Nat := 0x42

/-- See `OpI32Const`. -/
def OpEnd : Nat := 0x0b

/-- `decoder.readInitExpr`: guarded; a failing first read returns
silently without storing an error; the second read's outcome overwrites
whatever the opcode switch stored. -/
def readInitExpr (e : Option DErr) (r : List Nat) :
    Option DErr × List Nat × InitExpr :=
  match e with
  | some _ => (e, r, default)
  | none =>
    match r with
    | [] => (none, r, default)
    | b :: r1 =>
      let (e2, r2, v) :=
        if b = OpI32Const ∨ b = OpI64Const then readVarI32 none r1 0
        else (some .invOp, r1, 0)
      match r2 with
      | [] => (some .eof, [], ⟨v⟩)
      | c :: r3 =>
        if c ≠ OpEnd then (some .opEnd, r3, ⟨v⟩)
        else (e2, r3, ⟨v⟩)

/-- `decoder.readStartSection`. -/
def readStartSection (e : Option DErr) (r : List Nat) :
    Option DErr × List Nat × StartSection :=
  match e with
  | some _ => (e, r, default)
  | none =>
    let (e1, r1, idx) := readVarU32 none r 0
    (e1, r1, ⟨idx⟩)

/-- The fill loop over `s.tables`. -/
def readTableTypes (e : Option DErr) (r : List Nat) :
    Nat → Option DErr × List Nat × List TableType
  | 0 => (e, r, [])
  | n + 1 =>
    let (e1, r1, t) := readTableType e r
    let (e2, r2, ts) := readTableTypes e1 r1 n
    (e2, r2, t :: ts)

/-- `decoder.readTableSection`. -/
def readTableSection (e : Option DErr) (r : List Nat) :
    Option DErr × List Nat × List TableType :=
  match e with
  | some _ => (e, r, [])
  | none =>
    let (e1, r1, n) := readVarU32 none r 0
    let (e2, r2, ts) := readTableTypes e1 r1 n
    (e2, r2, ts)

/-- The fill loop over `s.memories`. -/
def readMemoryTypes (e : Option DErr) (r : List Nat) :
    Nat → Option DErr × List Nat × List MemoryType
  | 0 => (e, r, [])
  | n + 1 =>
    let (e1, r1, t) := readMemoryType e r
    let (e2, r2, ts) := readMemoryTypes e1 r1 n
    (e2, r2, t :: ts)

/-- `decoder.readMemorySection`. -/
def readMemorySection (e : Option DErr) (r : List Nat) :
    Option DErr × List Nat × List MemoryType :=
  match e with
  | some _ => (e, r, [])
  | none =>
    let (e1, r1, n) := readVarU32 none r 0
    let (e2, r2, ts) := readMemoryTypes e1 r1 n
    (e2, r2, ts)

/-- `decoder.readGlobalVariable` (the dead `TeeReader` capture is
omitted: its buffer is never used). -/
def readGlobalVariable (e : Option DErr) (r : List Nat) :
    Option DErr × List Nat × GlobalVariable :=
  match e with
  | some _ => (e, r, default)
  | none =>
    let (e1, r1, gt) := readGlobalType none r
    let (e2, r2, ie) := readInitExpr e1 r1
    (e2, r2, ⟨gt, ie⟩)

/-- The fill loop over `s.globals`. -/
def readGlobalVariables (e : Option DErr) (r : List Nat) :
    Nat → Option DErr × List Nat × List GlobalVariable
  | 0 => (e, r, [])
  | n + 1 =>
    let (e1, r1, g) := readGlobalVariable e r
    let (e2, r2, gs) := readGlobalVariables e1 r1 n
    (e2, r2, g :: gs)

/-- `decoder.readGlobalSection`. -/
def readGlobalSection (e : Option DErr) (r : List Nat) :
    Option DErr × List Nat × List GlobalVariable :=
  match e with
  | some _ => (e, r, [])
  | none =>
    let (e1, r1, n) := readVarU32 none r 0
    let (e2, r2, gs) := readGlobalVariables e1 r1 n
    (e2, r2, gs)

/-- `decoder.readElemSegment`. -/
def readElemSegment (e : Option DErr) (r : List Nat) :
    Option DErr × List Nat × ElemSegment :=
  match e with
  | some _ => (e, r, default)
  | none =>
    let (e1, r1, idx) := readVarU32 none r 0
    let (e2, r2, off) := readInitExpr e1 r1
    let (e3, r3, n) := readVarU32 e2 r2 0
    let (e4, r4, es) := readU32s e3 r3 n
    (e4, r4, ⟨idx, off, es⟩)

/-- The fill loop over `s.elements`. -/
def readElemSegments (e : Option DErr) (r : List Nat) :
    Nat → Option DErr × List Nat × List ElemSegment
  | 0 => (e, r, [])
  | n + 1 =>
    let (e1, r1, s) := readElemSegment e r
    let (e2, r2, ss) := readElemSegments e1 r1 n
    (e2, r2, s :: ss)

/-- `decoder.readElementSection`. -/
def readElementSection (e : Option DErr) (r : List Nat) :
    Option DErr × List Nat × List ElemSegment :=
  match e with
  | some _ => (e, r, [])
  | none =>
    let (e1, r1, n) := readVarU32 none r 0
    let (e2, r2, ss) := readElemSegments e1 r1 n
    (e2, r2, ss)

/-- `decoder.readLocalEntry`. -/
def readLocalEntry (e : Option DErr) (r : List Nat) :
    Option DErr × List Nat × LocalEntry :=
  match e with
  | some _ => (e, r, default)
  | none =>
    let (e1, r1, c) := readVarU32 none r 0
    let (e2, r2, t) := readValueType e1 r1 0
    (e2, r2, ⟨c, t⟩)

/-- The fill loop over `fb.Locals`. -/
def readLocalEntries (e : Option DErr) (r : List Nat) :
    Nat → Option DErr × List Nat × List LocalEntry
  | 0 => (e, r, [])
  | n + 1 =>
    let (e1, r1, l) := readLocalEntry e r
    let (e2, r2, ls) := readLocalEntries e1 r1 n
    (e2, r2, l :: ls)

/-- `decoder.readFunctionBody`: guarded at entry; the body is bounded by
a nested `LimitReader`, and the closing `ioutil.ReadAll` over the
in-memory remainder unconditionally overwrites the stored error with its
own nil error. -/
def readFunctionBody (e : Option DErr) (r : List Nat) :
    Option DErr × List Nat × FunctionBody :=
  match e with
  | some _ => (e, r, default)
  | none =>
    let (e1, r1, bodySize) := readVarU32 none r 0
    let view := r1.take bodySize
    let (e2, view2, locals) := readVarU32 e1 view 0
    let (_e3, view3, ls) := readLocalEntries e2 view2 locals
    (none, r1.drop view.length, ⟨bodySize, ls, view3⟩)

/-- The fill loop over `s.Bodies`. -/
def readFunctionBodies (e : Option DErr) (r : List Nat) :
    Nat → Option DErr × List Nat × List FunctionBody
  | 0 => (e, r, [])
  | n + 1 =>
    let (e1, r1, b) := readFunctionBody e r
    let (e2, r2, bs) := readFunctionBodies e1 r1 n
    (e2, r2, b :: bs)

/-- `decoder.readCodeSection`. -/
def readCodeSection (e : Option DErr) (r : List Nat) :
    Option DErr × List Nat × List FunctionBody :=
  match e with
  | some _ => (e, r, [])
  | none =>
    let (e1, r1, n) := readVarU32 none r 0
    let (e2, r2, bs) := readFunctionBodies e1 r1 n
    (e2, r2, bs)

/-- `decoder.readDataSegment`. -/
def readDataSegment (e : Option DErr) (r : List Nat) :
    Option DErr × List Nat × DataSegment :=
  match e with
  | some _ => (e, r, default)
  | none =>
    let (e1, r1, idx) := readVarU32 none r 0
    let (e2, r2, off) := readInitExpr e1 r1
    let (e3, r3, n) := readVarU32 e2 r2 0
    let (e4, r4, d) := readRaw e3 r3 n
    (e4, r4, ⟨idx, off, d⟩)

/-- The fill loop over `s.segments`. -/
def readDataSegments (e : Option DErr) (r : List Nat) :
    Nat → Option DErr × List Nat × List DataSegment
  | 0 => (e, r, [])
  | n + 1 =>
    let (e1, r1, s) := readDataSegment e r
    let (e2, r2, ss) := readDataSegments e1 r1 n
    (e2, r2, s :: ss)

/-- `decoder.readDataSection`. -/
def readDataSection (e : Option DErr) (r : List Nat) :
    Option DErr × List Nat × List DataSegment :=
  match e with
  | some _ => (e, r, [])
  | none =>
    let (e1, r1, n) := readVarU32 none r 0
    let (e2, r2, ss) := readDataSegments e1 r1 n
    (e2, r2, ss)

/-- The fill loop over `s.FuncName` in the name section. -/
def readFuncNames (e : Option DErr) (r : List Nat) :
    Nat → Option DErr × List Nat × List FunctionNames
  | 0 => (e, r, [])
  | n + 1 =>
    let (e1, r1, idx) := readVarU32 e r 0
    let (e2, r2, nm) := readString e1 r1 []
    let (e3, r3, fs) := readFuncNames e2 r2 n
    (e3, r3, ⟨idx, nm⟩ :: fs)

/-- The unbounded loop of `decoder.readNameSection` over (sub-type,
sub-length, payload) triples; it exits only through an error (normally
EOF of the section's limited reader).  Every iteration consumes at least
the sub-type byte, so a fuel of `r.length + 1` never runs out; the
fuel-exhausted case returns the current state. -/
def readNameSectionAux : Nat → Option DErr → List Nat →
    List Nat → List FunctionNames →
    Option DErr × List Nat × List Nat × List FunctionNames
  | 0, e, r, modN, funcN => (e, r, modN, funcN)
  | fuel + 1, e, r, modN, funcN =>
    match e with
    | some _ => (e, r, modN, funcN)
    | none =>
      let (e1, r1, nType) := readVarU7 none r 0
      match e1 with
      | some _ => (e1, r1, modN, funcN)
      | none =>
        let (e2, r2, sz) := readVarU32 none r1 0
        match e2 with
        | some _ => (e2, r2, modN, funcN)
        | none =>
          let rr := r2.take sz
          let (e3, rr3, modN', funcN') :=
            if nType = 0 then
              let (e', v', s) := readString none rr []
              (e', v', s, funcN)
            else if nType = 1 then
              let (e', v', n) := readVarU32 none rr 0
              let (e'', v'', fs) := readFuncNames e' v' n
              (e'', v'', modN, fs)
            else (none, rr, modN, funcN)
          let rrN := sz - (rr.length - rr3.length)
          let (e4, rr4, _) := if rrN > 0 then readRaw e3 rr3 rrN else (e3, rr3, [])
          readNameSectionAux fuel e4 (r2.drop (rr.length - rr4.length)) modN' funcN'

/-- Result of the general decoder's `readSection`: `stop` models the
`return nil` path (the loop in `readModule` then stops with the stored
error, already cleared when it was `io.EOF`); `next` carries the decoded
section and the rest of the stream; `crashes` marks the nil-interface
`sec.ID()` dereference in the trailing-bytes log when the section
identifier was invalid. -/
inductive GRes where
  | stop (e : Option DErr)
  | next (e : Option DErr) (s : GSection) (rest : List Nat)
  | crashes
  deriving Repr, DecidableEq

/-- The general decoder's `readSection`: identifier, declared length,
dispatch, and — unlike the canonicalizer — a declared length exceeding
the bytes consumed is only logged and the remainder drained. -/
def genReadSection (e0 : Option DErr) (input : List Nat) : GRes :=
  let (e1, r1, id) := readVarU7 e0 input 0
  match e1 with
  | some er => .stop (if er = .eof then none else some er)
  | none =>
    let (e2, r2, sz) := readVarU32 none r1 0
    let view := r2.take sz
    let (e3, view3, sec) :=
      if id = 0 then
        let (e, v', nm) := readString e2 view []
        let size := sz - (view.length - v'.length)
        if nm = [110, 97, 109, 101] then
          let (e', v'', modN, funcN) := readNameSectionAux (v'.length + 1) e v' [] []
          (e', v'', some (GSection.name ⟨nm, size, modN, funcN⟩))
        else (e, v', some (GSection.name ⟨nm, size, [], []⟩))
      else if id = 1 then
        let (e, v', s) := readTypeSection e2 view ⟨[]⟩
        (e, v', some (GSection.types s))
      else if id = 2 then
        let (e, v', s) := readImportSection e2 view ⟨[]⟩
        (e, v', some (GSection.imports s))
      else if id = 3 then
        let (e, v', s) := readFunctionSection e2 view ⟨[]⟩
        (e, v', some (GSection.functions s))
      else if id = 4 then
        let (e, v', s) := readTableSection e2 view
        (e, v', some (GSection.tables s))
      else if id = 5 then
        let (e, v', s) := readMemorySection e2 view
        (e, v', some (GSection.memories s))
      else if id = 6 then
        let (e, v', s) := readGlobalSection e2 view
        (e, v', some (GSection.globals s))
      else if id = 7 then
        let (e, v', s) := readExportSection e2 view ⟨[]⟩
        (e, v', some (GSection.exports s))
      else if id = 8 then
        let (e, v', s) := readStartSection e2 view
        (e, v', some (GSection.start s))
      else if id = 9 then
        let (e, v', s) := readElementSection e2 view
        (e, v', some (GSection.elements s))
      else if id = 10 then
        let (e, v', s) := readCodeSection e2 view
        (e, v', some (GSection.code s))
      else if id = 11 then
        let (e, v', s) := readDataSection e2 view
        (e, v', some (GSection.data s))
      else (some .invalidSection, view, none)
    let consumed := view.length - view3.length
    let rN := sz - consumed
    if rN ≠ 0 then
      match sec with
      | none => .crashes
      | some s =>
        let (e4, view4, _) := readRaw e3 view3 rN
        .next e4 s (r2.drop (view.length - view4.length))
    else
      match sec with
      | none => .stop (some .invalidSection)
      | some s => .next e3 s (r2.drop consumed)

/-! ## Concrete modules used by the theorems -/

/-- The 8-byte header: magic plus version 1. -/
def hdrBytes : List Nat := [0, 97, 115, 109, 1, 0, 0, 0]

/-- A module whose only section is a Start section (index 0). -/
def inputStart : List Nat := hdrBytes ++ [8, 1, 0]

/-- A module whose only section is an Export section with the single
entry ("main", function kind, index 0). -/
def inputOneExport : List Nat :=
  hdrBytes ++ [7, 8, 1, 4, 109, 97, 105, 110, 0, 0]

/-- A module with a Function section holding type index 1, no Type
section, and the two exports ("main", function, 0) and ("memory",
memory, 0). -/
def inputC9 : List Nat :=
  hdrBytes ++ [3, 2, 1, 1] ++
  [7, 17, 2, 4, 109, 97, 105, 110, 0, 0, 6, 109, 101, 109, 111, 114, 121, 2, 0]

/-- A module with one Type-section entry `() -> ()`, one function import
"debug"/"print" of type index 0, and the two exports ("main", function,
0 — i.e. the imported function) and ("memory", memory, 0). -/
def inputImportMain : List Nat :=
  hdrBytes ++ [1, 4, 1, 96, 0, 0] ++
  [2, 15, 1, 5, 100, 101, 98, 117, 103, 5, 112, 114, 105, 110, 116, 0, 0] ++
  [7, 17, 2, 4, 109, 97, 105, 110, 0, 0, 6, 109, 101, 109, 111, 114, 121, 2, 0]

/-- A module whose only section is an Export section with two identical
entries ("main", function kind, index 0). -/
def inputTwoMain : List Nat :=
  hdrBytes ++ [7, 15, 2, 4, 109, 97, 105, 110, 0, 0, 4, 109, 97, 105, 110, 0, 0]

/-- A module whose only section is a Start section padded with one extra
byte (declared length 2, payload needs 1). -/
def inputStartPad : List Nat := hdrBytes ++ [8, 2, 0, 0]

/-- The module `ReadValModule` produces on the given buffer (meaningful
when the decode succeeds). -/
def vmOf (b : Bool) (l : List Nat) : ValModule :=
  match ReadValModule (vmZero b) l with
  | .ok vm => vm
  | .error _ => default

/-! ## Supporting lemmas -/

/-- `subDecode` never touches the output buffer. -/
theorem subDecode_buff (vm : ValModule) (id sz : Nat) (view : List Nat) :
    (subDecode vm id sz view).2.2.buff = vm.buff := by
  unfold subDecode
  repeat' split
  all_goals rfl

/-- `subDecode` leaves the filtered export list unchanged for every
identifier other than 7. -/
theorem subDecode_exp_ne7 (vm : ValModule) (id sz : Nat) (view : List Nat)
    (h7 : id ≠ 7) :
    (subDecode vm id sz view).2.2.exp = vm.exp := by
  unfold subDecode
  repeat' split
  all_goals simp_all

/-- On an Export section, `subDecode` replaces the filtered export list
with a run of the filter loop over the parsed entries. -/
theorem subDecode_exp7 (vm : ValModule) (sz : Nat) (view : List Nat)
    (X : Option DErr × List Nat × ValModule)
    (h : subDecode vm 7 sz view = X) :
    ∃ l, X.2.2.exp.Exports = filterExports vm.exp.Exports l := by
  subst h
  unfold subDecode
  norm_num

/-- A successful `emitSection` with identifier 0 (a Custom section)
leaves the buffer untouched and sets the custom flag. -/
theorem emitSection_ok_custom (vm3 vm' : ValModule) (id : Nat)
    (out rest0 rest : List Nat)
    (h : emitSection vm3 id out rest0 = .ok (vm', rest, 0)) :
    vm'.buff = vm3.buff ∧ vm'.bCustom = true := by
  unfold emitSection at h
  repeat' split at h
  all_goals simp_all
  all_goals (obtain ⟨h1, h2⟩ := h; subst h1; exact ⟨rfl, rfl⟩)

/-- A successful `emitSection` preserves the filtered export list and
returns the identifier it was given. -/
theorem emitSection_ok_exp (vm3 vm' : ValModule) (id id' : Nat)
    (out rest0 rest : List Nat)
    (h : emitSection vm3 id out rest0 = .ok (vm', rest, id')) :
    vm'.exp = vm3.exp ∧ id' = id := by
  unfold emitSection at h
  repeat' split at h
  all_goals
    simp only [Except.ok.injEq, Prod.mk.injEq, reduceCtorEq, false_and,
      and_false] at h
  all_goals (obtain ⟨h1, h2, h3⟩ := h; rw [← h1]; exact ⟨rfl, h3.symm⟩)

/-- A successful `readSection` on a Custom section (identifier 0) leaves
the output buffer unchanged and sets the custom flag. -/
theorem readSection_custom_buff (vm : ValModule) (input : List Nat)
    (vm' : ValModule) (rest : List Nat)
    (h : readSection vm input = .ok (vm', rest, 0)) :
    vm'.buff = vm.buff ∧ vm'.bCustom = true := by
  unfold readSection at h
  repeat' split at h
  all_goals try simp at h
  rename_i viewR vm3 heqSub hrn
  have hb := congrArg (fun t => t.2.2.buff) heqSub
  dsimp only at hb
  rw [subDecode_buff] at hb
  obtain ⟨h1, h2⟩ := emitSection_ok_custom vm3 vm' _ _ _ _ h
  exact ⟨h1.trans hb.symm, h2⟩

/-- Reading a single-byte unsigned varint below 0x80. -/
theorem readVarU7_single (b : Nat) (t : List Nat) (hb : b < 128) :
    readVarU7 none (b :: t) 0 = (none, t, b) := by
  unfold readVarU7 uvarint uvarintAux
  simp [hb]
  omega

/-- Reading a single-byte unsigned varint below 0x80. -/
theorem readVarU32_single (b : Nat) (t : List Nat) (hb : b < 128) :
    readVarU32 none (b :: t) 0 = (none, t, b) := by
  unfold readVarU32 uvarint uvarintAux
  simp [hb]
  omega

/-- `read` over exactly the reader's contents consumes everything. -/
theorem readRaw_exact (pay : List Nat) :
    readRaw none pay pay.length = (none, [], pay) := by
  unfold readRaw
  by_cases h0 : pay.length = 0
  · have hnil : pay = [] := List.eq_nil_of_length_eq_zero h0
    subst hnil; simp
  · have hne : pay ≠ [] := by
      intro hc; subst hc; simp at h0
    simp [h0, hne]

/-- The default branch of the first switch (Start sections included)
drains the whole declared length and leaves the module untouched. -/
theorem subDecode_start (vm : ValModule) (pay : List Nat) :
    subDecode vm 8 pay.length pay = (none, [], vm) := by
  unfold subDecode
  norm_num [readRaw_exact]

/-- A well-formed Start section (single-byte length matching its
payload) is accepted by the canonicalizer's `readSection`, which sets
the start flag AND appends the section's original bytes to the output
buffer through the `fallthrough` into the default append branch. -/
theorem readSection_start (vm : ValModule) (sz : Nat) (pay rest : List Nat)
    (hov : vm.OnlyValidate = false) (hsz : pay.length = sz) (hlt : sz < 128) :
    readSection vm (8 :: sz :: (pay ++ rest)) =
      .ok ({ vm with startEntry := true, buff := vm.buff ++ 8 :: sz :: pay },
        rest, 8) := by
  subst hsz
  unfold readSection
  rw [readVarU7_single 8 _ (by omega)]
  dsimp only
  rw [readVarU32_single _ _ hlt]
  dsimp only
  rw [List.take_left, subDecode_start]
  dsimp only
  simp only [List.length_nil, Nat.sub_zero, List.take_left, List.drop_left]
  norm_num
  unfold emitSection
  norm_num [hov]
  have h2 : pay.length + rest.length + 1 + 1 - (pay.length + rest.length) = 2 := by
    omega
  rw [h2]
  simp

/-- Every entry the export filter loop adds satisfies the filter
condition. -/
theorem filterExports_all (l : List ExportEntry) :
    ∀ acc, (∀ ep ∈ acc, expMatch ep = true) →
      ∀ ep ∈ filterExports acc l, expMatch ep = true := by
  induction l with
  | nil => intro acc hacc; simpa [filterExports] using hacc
  | cons e rest ih =>
    intro acc hacc ep hep
    rw [filterExports] at hep
    split at hep
    next hmatch =>
      split at hep
      next =>
        rcases List.mem_append.mp hep with h | h
        · exact hacc ep h
        · simp at h; subst h; exact hmatch
      next =>
        refine ih (acc ++ [e]) ?_ ep hep
        intro x hx
        rcases List.mem_append.mp hx with h | h
        · exact hacc x h
        · simp at h; subst h; exact hmatch
    next => exact ih acc hacc ep hep

/-- Starting from at most one accumulated entry, the export filter loop
never keeps more than two entries (it breaks at two). -/
theorem filterExports_len (l : List ExportEntry) :
    ∀ acc, acc.length ≤ 1 → (filterExports acc l).length ≤ 2 := by
  induction l with
  | nil =>
    intro acc hacc
    have hnil : filterExports acc [] = acc := rfl
    rw [hnil]
    omega
  | cons e rest ih =>
    intro acc hacc
    rw [filterExports]
    split
    next =>
      split
      next h2 =>
        have hlen : (acc ++ [e]).length = acc.length + 1 := by simp
        omega
      next h2 =>
        apply ih
        have hlen : (acc ++ [e]).length = acc.length + 1 := by simp
        omega
    next => exact ih acc hacc

/-- A successful `readSection` preserves the filtered export list unless
it parsed an Export section, in which case the new list is a filter run
over the parsed entries. -/
theorem readSection_exp (vm : ValModule) (input : List Nat)
    (vm' : ValModule) (rest : List Nat) (id : Nat)
    (h : readSection vm input = .ok (vm', rest, id)) :
    (id ≠ 7 → vm'.exp = vm.exp) ∧
    (id = 7 → ∃ l, vm'.exp.Exports = filterExports vm.exp.Exports l) := by
  unfold readSection at h
  repeat' split at h
  all_goals try simp at h
  rename_i viewR vm3 heqSub hrn
  obtain ⟨hexp, hid⟩ := emitSection_ok_exp vm3 vm' _ id _ _ _ h
  subst hid
  constructor
  · intro h7
    have hb := congrArg (fun t => t.2.2.exp) heqSub
    dsimp only at hb
    rw [subDecode_exp_ne7 vm _ _ _ h7] at hb
    rw [hexp, ← hb]
  · intro h7
    subst h7
    obtain ⟨l, hl⟩ := subDecode_exp7 vm _ _ _ heqSub
    dsimp only at hl
    rw [hexp]
    exact ⟨l, hl⟩

/-- The ghost Export-section count of the section loop never
decreases. -/
theorem aux_cnt_le (fuel : Nat) :
    ∀ vm input cnt vm' cnt',
      ReadValModuleAux fuel vm input cnt = .ok (vm', cnt') → cnt ≤ cnt' := by
  induction fuel with
  | zero =>
    intro vm input cnt vm' cnt' h
    simp only [ReadValModuleAux, Except.ok.injEq, Prod.mk.injEq] at h
    omega
  | succ f ih =>
    intro vm input cnt vm' cnt' h
    rw [ReadValModuleAux] at h
    split at h
    · simp only [Except.ok.injEq, Prod.mk.injEq] at h
      omega
    · exact absurd h (by simp)
    · exact absurd h (by simp)
    · exact absurd h (by simp)
    · exact absurd h (by simp)
    next vm2 rest id heqRS =>
      have := ih vm2 rest _ vm' cnt' h
      split at this <;> omega

/-- If the section loop processed no Export section, the filtered export
list is unchanged. -/
theorem aux_exp_eq (fuel : Nat) :
    ∀ vm input cnt vm' cnt',
      ReadValModuleAux fuel vm input cnt = .ok (vm', cnt') → cnt' = cnt →
      vm'.exp = vm.exp := by
  induction fuel with
  | zero =>
    intro vm input cnt vm' cnt' h _
    simp only [ReadValModuleAux, Except.ok.injEq, Prod.mk.injEq] at h
    rw [← h.1]
  | succ f ih =>
    intro vm input cnt vm' cnt' h hcnt
    rw [ReadValModuleAux] at h
    split at h
    · simp only [Except.ok.injEq, Prod.mk.injEq] at h
      rw [← h.1]
    · exact absurd h (by simp)
    · exact absurd h (by simp)
    · exact absurd h (by simp)
    · exact absurd h (by simp)
    next vm2 rest id heqRS =>
      by_cases h7 : id = 7
      · subst h7
        simp only [if_pos rfl] at h
        have hle := aux_cnt_le f vm2 rest (cnt + 1) vm' cnt' h
        omega
      · rw [if_neg h7] at h
        have h1 := ih vm2 rest cnt vm' cnt' h hcnt
        have h2 := (readSection_exp vm input vm2 rest id heqRS).1 h7
        rw [h1, h2]

/-- If the section loop starts with an empty filtered export list and
processes exactly one Export section, the filtered list ends with at
most two entries. -/
theorem aux_exp_len (fuel : Nat) :
    ∀ vm input cnt vm' cnt',
      ReadValModuleAux fuel vm input cnt = .ok (vm', cnt') → cnt' = cnt + 1 →
      vm.exp.Exports = [] → vm'.exp.Exports.length ≤ 2 := by
  induction fuel with
  | zero =>
    intro vm input cnt vm' cnt' h hcnt _
    simp only [ReadValModuleAux, Except.ok.injEq, Prod.mk.injEq] at h
    omega
  | succ f ih =>
    intro vm input cnt vm' cnt' h hcnt hnil
    rw [ReadValModuleAux] at h
    split at h
    · simp only [Except.ok.injEq, Prod.mk.injEq] at h
      omega
    · exact absurd h (by simp)
    · exact absurd h (by simp)
    · exact absurd h (by simp)
    · exact absurd h (by simp)
    next vm2 rest id heqRS =>
      by_cases h7 : id = 7
      · subst h7
        simp only [if_pos rfl] at h
        obtain ⟨l, hl⟩ := (readSection_exp vm input vm2 rest 7 heqRS).2 rfl
        have hlen2 : vm2.exp.Exports.length ≤ 2 := by
          rw [hl, hnil]
          exact filterExports_len l [] (by simp)
        have hexp := aux_exp_eq f vm2 rest (cnt + 1) vm' cnt' h (by omega)
        rw [hexp]
        exact hlen2
      · rw [if_neg h7] at h
        have h2 := (readSection_exp vm input vm2 rest id heqRS).1 h7
        exact ih vm2 rest cnt vm' cnt' h hcnt (by rw [h2, hnil])

/-- Every entry the section loop accumulates into the filtered export
list satisfies the filter condition. -/
theorem aux_exp_match (fuel : Nat) :
    ∀ vm input cnt vm' cnt',
      ReadValModuleAux fuel vm input cnt = .ok (vm', cnt') →
      (∀ ep ∈ vm.exp.Exports, expMatch ep = true) →
      ∀ ep ∈ vm'.exp.Exports, expMatch ep = true := by
  induction fuel with
  | zero =>
    intro vm input cnt vm' cnt' h hall
    simp only [ReadValModuleAux, Except.ok.injEq, Prod.mk.injEq] at h
    rw [← h.1]
    exact hall
  | succ f ih =>
    intro vm input cnt vm' cnt' h hall
    rw [ReadValModuleAux] at h
    split at h
    · simp only [Except.ok.injEq, Prod.mk.injEq] at h
      rw [← h.1]
      exact hall
    · exact absurd h (by simp)
    · exact absurd h (by simp)
    · exact absurd h (by simp)
    · exact absurd h (by simp)
    next vm2 rest id heqRS =>
      refine ih vm2 rest _ vm' cnt' h ?_
      by_cases h7 : id = 7
      · subst h7
        obtain ⟨l, hl⟩ := (readSection_exp vm input vm2 rest 7 heqRS).2 rfl
        rw [hl]
        exact filterExports_all l vm.exp.Exports hall
      · rw [(readSection_exp vm input vm2 rest id heqRS).1 h7]
        exact hall

/-- The per-entry export encoding loop can only fail with
`errReadSection` (an over-long name), never with `errExports`. -/
theorem encodeExportEntries_no_exports (l : List ExportEntry) :
    encodeExportEntries l ≠ .error .exports := by
  induction l with
  | nil => simp [encodeExportEntries]
  | cons e rest ih =>
    rw [encodeExportEntries]
    split
    · simp
    · split
      next er heq =>
        intro hc
        simp only [Except.error.injEq] at hc
        subst hc
        exact ih heq
      next => simp

/-! ## Theorems for the claims -/

/-- C1, counterexample: `inputStart` is accepted by `ReadValModule` with
`OnlyValidate` false and contains a Start section, yet `Bytes()` DOES
contain that section's bytes `[8, 1, 0]` — the `fallthrough` in the
Start case appends them, so the claim that Start sections are never
appended to the output is false on this input. -/
theorem c1_start_section_counterexample :
    Except.isOk (ReadValModule (vmZero false) inputStart) = true ∧
    (vmOf false inputStart).startEntry = true ∧
    Bytes (vmOf false inputStart) = hdrBytes ++ [8, 1, 0] := by
  exact ⟨rfl, rfl, rfl⟩

/-- C3, counterexample: a `ValModule` decoded in strict mode with no
Start section, no Custom section, and exactly one filtered export, on
which `Validate` returns `errExports` — not `errExpMiss` as the claim
states, because the export-count check precedes the name lookups. -/
theorem c3_one_export_counterexample :
    (vmOf true inputOneExport).startEntry = false ∧
    (vmOf true inputOneExport).bCustom = false ∧
    (vmOf true inputOneExport).exp.Exports.length = 1 ∧
    Validate (vmOf true inputOneExport) = .err .exports ∧
    VRes.err .exports ≠ VRes.err .expMiss := by
  exact ⟨rfl, rfl, rfl, rfl, by decide⟩

/-- C3, amended: a `ValModule` with no Start section, no Custom section
in strict mode, and exactly one filtered export fails `Validate` with
`errExports` (the export-count predicate), not `errExpMiss`. -/
theorem c3_one_export_errExports (vm : ValModule)
    (hs : vm.startEntry = false)
    (hc : vm.OnlyValidate = true → vm.bCustom = false)
    (h1 : vm.exp.Exports.length = 1) :
    Validate vm = .err .exports := by
  unfold Validate
  simp only [hs, h1, Bool.false_eq_true, if_false]
  by_cases ho : vm.OnlyValidate = true
  · simp [ho, hc ho]
  · simp [Bool.not_eq_true] at ho
    simp [ho]

/-- Witness for `c3_one_export_errExports` at the concrete module of
`inputOneExport`. -/
theorem c3_one_export_errExports_witness :
    Validate (vmOf true inputOneExport) = .err .exports :=
  c3_one_export_errExports (vmOf true inputOneExport) (by decide)
    (fun _ => by decide) (by decide)

/-- C2, counterexample: a decoded module with one function import of
type `() -> ()` and a "main" export whose index 0 lies below the import
count; `getFuncSig` returns nil instead of resolving the import's type,
so the main-export signature predicate fails with `errExpError` — the
claim that it succeeds is false on this module. -/
theorem c2_import_main_counterexample :
    Except.isOk (ReadValModule (vmZero false) inputImportMain) = true ∧
    (vmOf false inputImportMain).imp.Imports.length = 1 ∧
    (vmOf false inputImportMain).imp.Imports.map ImportEntry.Typ = [.funcIdx 0] ∧
    (vmOf false inputImportMain).typ.Types = [⟨-32, [], []⟩] ∧
    findExport (vmOf false inputImportMain) mainName = some ⟨mainName, 0, 0⟩ ∧
    getFuncSig (vmOf false inputImportMain) 0 = .null ∧
    Validate (vmOf false inputImportMain) = .err .expError := by
  exact ⟨rfl, rfl, rfl, rfl, rfl, rfl, rfl⟩

/-- C2, amended: for every `ValModule` whose "main" export carries a
global function index below the number of Import entries (and which
passes the earlier Validate predicates), `getFuncSig` returns nil — it
does NOT resolve the index through the Import section — and `Validate`
fails with `errExpError`: an imported function cannot serve as the main
export. -/
theorem c2_main_import_null (vm : ValModule) (ep : ExportEntry)
    (hs : vm.startEntry = false)
    (hc : vm.OnlyValidate = true → vm.bCustom = false)
    (hl : vm.exp.Exports.length = 2)
    (hm : findExport vm mainName = some ep) (hk : ep.Kind = 0)
    (hi : ep.Index < vm.imp.Imports.length) :
    getFuncSig vm ep.Index = .null ∧ Validate vm = .err .expError := by
  have hg : getFuncSig vm ep.Index = .null := by
    unfold getFuncSig
    rw [if_pos hi]
  refine ⟨hg, ?_⟩
  unfold Validate
  rw [hm]
  simp only [hs, hl, hk, hg, Bool.false_eq_true, if_false, ne_eq,
    not_true_eq_false, ite_false]
  by_cases ho : vm.OnlyValidate = true
  · simp [ho, hc ho]
  · simp only [Bool.not_eq_true] at ho
    simp [ho]

/-- Witness for `c2_main_import_null` at the concrete module of
`inputImportMain`. -/
theorem c2_main_import_null_witness :
    getFuncSig (vmOf false inputImportMain) 0 = .null ∧
    Validate (vmOf false inputImportMain) = .err .expError :=
  c2_main_import_null (vmOf false inputImportMain) ⟨mainName, 0, 0⟩
    (by decide) (fun _ => by decide) (by decide) (by decide) (by decide)
    (by decide)

/-- C4, counterexample: feeding `uvarint` a source of exactly six bytes,
each with the continuation bit set, fails with the source's EOF error
after consuming all six bytes — not with the Overflow error as the claim
states (overflow is only detected on a terminating byte). -/
theorem c4_six_cont_bytes_counterexample :
    uvarint [128, 128, 128, 128, 128, 128] = ((0, 6, some .eof), []) ∧
    (some DErr.eof ≠ some DErr.overflow) := by
  exact ⟨rfl, by decide⟩

/-- The unsigned varint loop never terminates inside a run of
continuation bytes: if every byte of the source has the high bit set,
the decode consumes the whole source and returns the reader's EOF
error. -/
theorem uvarintAux_all_continuation (src : List Nat)
    (hb : ∀ b ∈ src, 128 ≤ b) :
    ∀ x s i, uvarintAux src x s i = ((0, i + src.length, some .eof), []) := by
  induction src with
  | nil => intro x s i; simp [uvarintAux]
  | cons b rest ih =>
    intro x s i
    have hb0 : 128 ≤ b := hb b (List.mem_cons_self _ _)
    have hride : ∀ b' ∈ rest, 128 ≤ b' := fun b' h => hb b' (List.mem_cons_of_mem _ h)
    rw [uvarintAux, if_neg (by omega)]
    rw [ih hride]
    simp only [List.length_cons, Prod.mk.injEq, and_true, true_and]
    omega

/-- C4, amended: a decode over a source supplying exactly six bytes with
the continuation bit set fails with the underlying reader's
end-of-stream error (after consuming all six bytes); Overflow is
reported only when a terminating byte (< 0x80) arrives at index > 4, or
at index 4 with a value above 15. -/
theorem c4_six_cont_bytes_eof (src : List Nat) (h6 : src.length = 6)
    (hb : ∀ b ∈ src, 128 ≤ b) :
    uvarint src = ((0, 6, some .eof), []) := by
  unfold uvarint
  rw [uvarintAux_all_continuation src hb 0 0 0, h6]

/-- Witness for `c4_six_cont_bytes_eof` at the concrete source. -/
theorem c4_six_cont_bytes_eof_witness :
    uvarint [128, 128, 128, 128, 128, 128] = ((0, 6, some .eof), []) :=
  c4_six_cont_bytes_eof [128, 128, 128, 128, 128, 128] (by decide) (by decide)

/-- C5: the superseded general decoder's `readVarI7` is not a no-op on a
stored error — on state `errOverflow` with source `[2]` it consumes the
byte, overwrites the out-parameter with 1 and replaces the stored error
with `errMalform`; the final decoder's `readVarI7` (and its peers) on
the same state leave everything unchanged. -/
theorem c5_old_readVarI7_not_sticky :
    OldDec.readVarI7 (some .overflow) [2] 0 = (some .malform, [], 1) ∧
    readVarI7 (some .overflow) [2] 0 = (some .overflow, [2], 0) ∧
    readVarU7 (some .overflow) [2] 0 = (some .overflow, [2], 0) ∧
    readVarU32 (some .overflow) [2] 0 = (some .overflow, [2], 0) ∧
    readString (some .overflow) [2] [] = (some .overflow, [2], []) ∧
    readRaw (some .overflow) [2] 1 = (some .overflow, [2], [0]) ∧
    readValueType (some .overflow) [2] 0 = (some .overflow, [2], 0) := by
  exact ⟨rfl, rfl, rfl, rfl, rfl, rfl, rfl⟩

/-- Or-ing a value below `2^s` with a multiple of `2^s` is addition
(the bit ranges are disjoint). -/
theorem lor_mul_pow {x : Nat} (m s : Nat) (hx : x < 2 ^ s) :
    x ||| m * 2 ^ s = x + m * 2 ^ s := by
  rw [Nat.lor_comm, Nat.mul_comm m (2 ^ s), ← Nat.mul_add_lt_is_or hx]
  omega

/-- Core round-trip induction: decoding the encoder loop's output from
any reached accumulator state yields the combined value, consuming
exactly the emitted bytes. -/
theorem uvarint_bytesLoop (fuel : Nat) :
    ∀ v x i, 0 < fuel → v < 2 ^ (7 * fuel) → fuel + i = 5 →
      x < 2 ^ (7 * i) → x + v * 2 ^ (7 * i) < 2 ^ 32 →
      uvarintAux (bytesLoop fuel v) x (7 * i) i =
        ((x + v * 2 ^ (7 * i), i + (bytesLoop fuel v).length, none), []) := by
  induction fuel with
  | zero => intro v x i h0; omega
  | succ f ih =>
    intro v x i _h0 hv hfi hx hbound
    by_cases hsmall : v / 128 = 0
    · have hv128 : v < 128 := by omega
      have hlist : bytesLoop (f + 1) v = [v] := by
        rw [bytesLoop, if_pos hsmall, Nat.mod_eq_of_lt hv128]
      rw [hlist]
      have hnotov : ¬(i > 4 ∨ (i = 4 ∧ v > 15)) := by
        rintro (h | ⟨hi, hvv⟩)
        · omega
        · subst hi
          norm_num at hbound
          omega
      rw [uvarintAux, if_pos hv128, if_neg hnotov]
      have hmod : (v * 2 ^ (7 * i)) % 2 ^ 32 = v * 2 ^ (7 * i) :=
        Nat.mod_eq_of_lt (by omega)
      rw [hmod, lor_mul_pow v (7 * i) hx]
      simp
    · have hvbig : 128 ≤ v := by
        by_contra hc
        push_neg at hc
        omega
      have hlist : bytesLoop (f + 1) v =
          (v % 128 + 128) :: bytesLoop f (v / 128) := by
        rw [bytesLoop, if_neg hsmall]
      have hf1 : 0 < f := by
        rcases Nat.eq_zero_or_pos f with hf | hf
        · subst hf
          norm_num at hv
          omega
        · exact hf
      rw [hlist, uvarintAux]
      have hbge : ¬(v % 128 + 128 < 128) := by omega
      rw [if_neg hbge]
      have hbmod : (v % 128 + 128) % 128 = v % 128 := by omega
      have hmod2 : ((v % 128) * 2 ^ (7 * i)) % 2 ^ 32 = (v % 128) * 2 ^ (7 * i) := by
        apply Nat.mod_eq_of_lt
        have : (v % 128) * 2 ^ (7 * i) ≤ v * 2 ^ (7 * i) :=
          Nat.mul_le_mul_right _ (Nat.mod_le v 128)
        omega
      rw [hbmod, hmod2, lor_mul_pow (v % 128) (7 * i) hx]
      have hstep : 7 * i + 7 = 7 * (i + 1) := by ring
      rw [hstep]
      have hdecomp : v = 128 * (v / 128) + v % 128 := (Nat.div_add_mod v 128).symm
      have hx' : x + (v % 128) * 2 ^ (7 * i) < 2 ^ (7 * (i + 1)) := by
        have h2 : v % 128 < 128 := Nat.mod_lt _ (by norm_num)
        have h3 : (v % 128) * 2 ^ (7 * i) ≤ 127 * 2 ^ (7 * i) :=
          Nat.mul_le_mul_right _ (by omega)
        have h4 : 2 ^ (7 * (i + 1)) = 128 * 2 ^ (7 * i) := by
          rw [show 7 * (i + 1) = 7 * i + 7 by ring, pow_add]
          ring
        omega
      have hval : x + (v % 128) * 2 ^ (7 * i) + (v / 128) * 2 ^ (7 * (i + 1)) =
          x + v * 2 ^ (7 * i) := by
        have h4 : 2 ^ (7 * (i + 1)) = 2 ^ (7 * i) * 128 := by
          rw [show 7 * (i + 1) = 7 * i + 7 by ring, pow_add]
          ring
        calc x + (v % 128) * 2 ^ (7 * i) + (v / 128) * 2 ^ (7 * (i + 1))
            = x + ((v % 128) + (v / 128) * 128) * 2 ^ (7 * i) := by
              rw [h4]; ring
          _ = x + v * 2 ^ (7 * i) := by
              congr 1
              conv_rhs => rw [hdecomp]
              ring
      have hdivlt : v / 128 < 2 ^ (7 * f) := by
        rw [Nat.div_lt_iff_lt_mul (by norm_num : (0:Nat) < 128)]
        have h5 : 2 ^ (7 * f) * 128 = 2 ^ (7 * (f + 1)) := by
          rw [show 7 * (f + 1) = 7 * f + 7 by ring, pow_add]
          ring
        omega
      have hbound' : x + (v % 128) * 2 ^ (7 * i) + (v / 128) * 2 ^ (7 * (i + 1)) < 2 ^ 32 := by
        rw [hval]; exact hbound
      rw [ih (v / 128) (x + (v % 128) * 2 ^ (7 * i)) (i + 1) hf1 hdivlt
        (by omega) hx' hbound']
      rw [hval]
      simp only [List.length_cons, Prod.mk.injEq, and_true, true_and]
      omega



/-- Canonical-form facts about the encoder loop's output: non-empty,
high bit set on every byte but the last, last byte below 0x80 and
non-zero whenever the value is non-zero (no trailing zero groups). -/
theorem bytesLoop_canonical (fuel : Nat) :
    ∀ v, 0 < fuel → v < 2 ^ (7 * fuel) →
      bytesLoop fuel v ≠ [] ∧
      (∀ b ∈ (bytesLoop fuel v).dropLast, 128 ≤ b) ∧
      (bytesLoop fuel v).getLastD 0 < 128 ∧
      (0 < v → (bytesLoop fuel v).getLastD 0 ≠ 0) ∧
      (v < 128 → bytesLoop fuel v = [v]) := by
  induction fuel with
  | zero => intro v h0; omega
  | succ f ih =>
    intro v _h0 hv
    by_cases hsmall : v / 128 = 0
    · have hv128 : v < 128 := by omega
      have hlist : bytesLoop (f + 1) v = [v] := by
        rw [bytesLoop, if_pos hsmall, Nat.mod_eq_of_lt hv128]
      rw [hlist]
      refine ⟨by simp, by simp, by simpa using hv128, ?_, fun _ => rfl⟩
      intro hvpos
      simp
      omega
    · have hvbig : 128 ≤ v := by
        by_contra hc
        push_neg at hc
        omega
      have hlist : bytesLoop (f + 1) v =
          (v % 128 + 128) :: bytesLoop f (v / 128) := by
        rw [bytesLoop, if_neg hsmall]
      have hf1 : 0 < f := by
        rcases Nat.eq_zero_or_pos f with hf | hf
        · subst hf
          norm_num at hv
          omega
        · exact hf
      have hdivlt : v / 128 < 2 ^ (7 * f) := by
        rw [Nat.div_lt_iff_lt_mul (by norm_num : (0:Nat) < 128)]
        have h5 : 2 ^ (7 * f) * 128 = 2 ^ (7 * (f + 1)) := by
          rw [show 7 * (f + 1) = 7 * f + 7 by ring, pow_add]
          ring
        omega
      obtain ⟨htne, hdrop, hlast, hlastnz, _⟩ := ih (v / 128) hf1 hdivlt
      rw [hlist]
      have hcons_last : ((v % 128 + 128) :: bytesLoop f (v / 128)).getLastD 0 =
          (bytesLoop f (v / 128)).getLastD 0 := by
        rcases hx : bytesLoop f (v / 128) with _ | ⟨y, ys⟩
        · exact absurd hx htne
        · simp [List.getLastD_cons]
      refine ⟨by simp, ?_, ?_, ?_, ?_⟩
      · intro b hb
        rw [List.dropLast_cons_of_ne_nil htne] at hb
        rcases List.mem_cons.mp hb with h | h
        · omega
        · exact hdrop b h
      · rw [hcons_last]; exact hlast
      · intro _
        rw [hcons_last]
        exact hlastnz (by omega)
      · intro hlt
        omega

/-- C7: for every `uint32` value, `uvarint` decodes the bytes produced
by `varuint32.bytes` back to the value, with the byte count equal to the
length of the encoding, and the encoding is the minimum-length LEB128
form: high bit set on every byte except the last, last byte below 0x80,
and no trailing zero continuation group (the last byte is non-zero
whenever more than one byte is emitted). -/
theorem c7_roundtrip_canonical (v : Nat) (hv : v < 2 ^ 32) :
    uvarint (varuint32bytes v) =
      ((v, (varuint32bytes v).length, none), []) ∧
    varuint32bytes v ≠ [] ∧
    (∀ b ∈ (varuint32bytes v).dropLast, 128 ≤ b) ∧
    (varuint32bytes v).getLastD 0 < 128 ∧
    (1 < (varuint32bytes v).length → (varuint32bytes v).getLastD 0 ≠ 0) := by
  have h35 : v < 2 ^ (7 * 5) := by
    have : (2:Nat) ^ 32 ≤ 2 ^ (7 * 5) := Nat.pow_le_pow_right (by norm_num) (by norm_num)
    omega
  have hrt := uvarint_bytesLoop 5 v 0 0 (by norm_num) h35 (by norm_num)
    (by norm_num) (by simpa using hv)
  obtain ⟨hne, hdrop, hlast, hlastnz, hsmall⟩ :=
    bytesLoop_canonical 5 v (by norm_num) h35
  refine ⟨?_, hne, hdrop, hlast, ?_⟩
  · unfold uvarint varuint32bytes
    simpa using hrt
  · intro hlen
    have hvpos : 0 < v := by
      by_contra hzero
      push_neg at hzero
      have hv0 : v = 0 := by omega
      subst hv0
      unfold varuint32bytes at hlen
      rw [hsmall (by norm_num)] at hlen
      simp at hlen
    exact hlastnz hvpos


/-- Witness for `c7_roundtrip_canonical` at `v = 65536`
(`varuint32.bytes 65536 = [128, 128, 4]`, one of the repository's own
test vectors). -/
theorem c7_roundtrip_canonical_witness :
    65536 < 2 ^ 32 ∧ varuint32bytes 65536 = [128, 128, 4] ∧
    uvarint (varuint32bytes 65536) =
      ((65536, (varuint32bytes 65536).length, none), []) :=
  ⟨by decide, by decide, (c7_roundtrip_canonical 65536 (by decide)).1⟩

/-- A Type section whose payload declares zero entries consumes exactly
the count byte. -/
theorem readTypeSection_zero (s : TypeSection) (pad : List Nat) :
    readTypeSection none (0 :: pad) s = (none, pad, ⟨[]⟩) := by
  unfold readTypeSection
  rw [readVarU32_single 0 pad (by omega)]
  rfl

/-- An Import section whose payload declares zero entries consumes
exactly the count byte. -/
theorem readImportSection_zero (s : ImportSection) (pad : List Nat) :
    readImportSection none (0 :: pad) s = (none, pad, ⟨[]⟩) := by
  unfold readImportSection
  rw [readVarU32_single 0 pad (by omega)]
  rfl

/-- A Function section whose payload declares zero entries consumes
exactly the count byte. -/
theorem readFunctionSection_zero (s : FunctionSection) (pad : List Nat) :
    readFunctionSection none (0 :: pad) s = (none, pad, ⟨[]⟩) := by
  unfold readFunctionSection
  rw [readVarU32_single 0 pad (by omega)]
  rfl

/-- An Export section whose payload declares zero entries consumes
exactly the count byte. -/
theorem readExportSection_zero (s : ExportSection) (pad : List Nat) :
    readExportSection none (0 :: pad) s = (none, pad, ⟨[]⟩) := by
  unfold readExportSection
  rw [readVarU32_single 0 pad (by omega)]
  rfl

/-- `subDecode` on a zero-entry Type payload with padding: the padding
is left unread. -/
theorem subDecode_pad1 (vm : ValModule) (sz : Nat) (pad : List Nat) :
    subDecode vm 1 sz (0 :: pad) = (none, pad, { vm with typ := ⟨[]⟩ }) := by
  unfold subDecode
  norm_num [readTypeSection_zero]

/-- `subDecode` on a zero-entry Import payload with padding. -/
theorem subDecode_pad2 (vm : ValModule) (sz : Nat) (pad : List Nat) :
    subDecode vm 2 sz (0 :: pad) = (none, pad, { vm with imp := ⟨[]⟩ }) := by
  unfold subDecode
  norm_num [readImportSection_zero]

/-- `subDecode` on a zero-entry Function payload with padding. -/
theorem subDecode_pad3 (vm : ValModule) (sz : Nat) (pad : List Nat) :
    subDecode vm 3 sz (0 :: pad) = (none, pad, { vm with fn := ⟨[]⟩ }) := by
  unfold subDecode
  norm_num [readFunctionSection_zero]

/-- `subDecode` on a zero-entry Export payload with padding. -/
theorem subDecode_pad7 (vm : ValModule) (sz : Nat) (pad : List Nat) :
    subDecode vm 7 sz (0 :: pad) =
      (none, pad, { vm with exp := ⟨filterExports vm.exp.Exports []⟩ }) := by
  unfold subDecode
  norm_num [readExportSection_zero]

/-- Whenever the dispatched sub-decoder leaves the non-empty padding of
a section's declared length unread, the canonicalizer's `readSection`
reaches the trailing-bytes branch and crashes (the nil-interface
`sec.ID()` panic), instead of returning the intended error. -/
theorem readSection_pad_crash (vm X : ValModule) (id : Nat)
    (pad rest : List Nat) (hne : pad ≠ []) (hlt : pad.length + 1 < 128)
    (hid : id < 128)
    (hsub : subDecode vm id (pad.length + 1) (0 :: pad) = (none, pad, X)) :
    readSection vm (id :: (pad.length + 1) :: 0 :: (pad ++ rest)) =
      .error .crash := by
  unfold readSection
  rw [readVarU7_single id _ hid]
  dsimp only
  rw [readVarU32_single _ _ hlt]
  dsimp only
  have hview : (0 :: (pad ++ rest)).take (pad.length + 1) = 0 :: pad := by
    rw [show (0 :: (pad ++ rest)) = (0 :: pad) ++ rest from rfl]
    exact List.take_left' (by simp)
  rw [hview, hsub]
  dsimp only
  have hcond : pad.length + 1 - ((0 :: pad).length - pad.length) ≠ 0 := by
    have h1 : pad.length ≥ 1 := List.length_pos.mpr hne
    have h2 : (0 :: pad).length = pad.length + 1 := by simp
    omega
  rw [if_pos hcond]

/-- The trailing-bytes crash propagates out of `ReadValModule` (there is
no recover): the whole decode crashes rather than returning an error. -/
theorem readValModule_pad_crash (vm X : ValModule) (id : Nat)
    (pad rest : List Nat) (hne : pad ≠ []) (hlt : pad.length + 1 < 128)
    (hid : id < 128)
    (hsub : subDecode { vm with buff := hdrBytes }
      id (pad.length + 1) (0 :: pad) = (none, pad, X)) :
    ReadValModule vm (hdrBytes ++ id :: (pad.length + 1) :: 0 :: (pad ++ rest)) =
      .error .crash := by
  unfold ReadValModule ReadValModuleC
  rw [if_neg (by simp [hdrBytes])]
  rw [if_neg (by simp [hdrBytes, magicWASM])]
  rw [show (hdrBytes ++ id :: (pad.length + 1) :: 0 :: (pad ++ rest)).drop 8 =
      id :: (pad.length + 1) :: 0 :: (pad ++ rest) from rfl]
  rw [show (hdrBytes ++ id :: (pad.length + 1) :: 0 :: (pad ++ rest)).take 8 =
      hdrBytes from rfl]
  rw [ReadValModuleAux]
  rw [readSection_pad_crash _ X id pad rest hne hlt hid hsub]
  rfl

/-- Reading a single-byte Start-section index below 0x80. -/
theorem readStartSection_single (b : Nat) (t : List Nat) (hb : b < 128) :
    readStartSection none (b :: t) = (none, t, ⟨b⟩) := by
  unfold readStartSection
  rw [readVarU32_single b t hb]

/-- The general decoder on a Start section with a single-byte index and
any amount of padding: the index is decoded, the padding drained, and
decoding continues with no error. -/
theorem genReadSection_start (b : Nat) (extra rest : List Nat)
    (hb : b < 128) (hlt : extra.length + 1 < 128) :
    genReadSection none (8 :: (extra.length + 1) :: b :: (extra ++ rest)) =
      .next none (.start ⟨b⟩) rest := by
  unfold genReadSection
  rw [readVarU7_single 8 _ (by omega)]
  dsimp only
  rw [readVarU32_single _ _ hlt]
  dsimp only
  have hview : (b :: (extra ++ rest)).take (extra.length + 1) = b :: extra := by
    rw [show (b :: (extra ++ rest)) = (b :: extra) ++ rest from rfl]
    exact List.take_left' (by simp)
  rw [hview]
  norm_num
  rw [readStartSection_single b extra hb]
  dsimp only
  have h1 : extra.length + 1 - extra.length = 1 := by omega
  rw [h1]
  have h2 : extra.length + 1 - 1 = extra.length := by omega
  rw [h2]
  by_cases hex : extra = []
  · subst hex
    norm_num
  · rw [if_neg (fun hc => hex (List.length_eq_zero.mp hc))]
    rw [readRaw_exact extra]
    dsimp only
    have hd : (b :: (extra ++ rest)).drop
        (extra.length + 1 - ([] : List Nat).length) = rest := by
      simp only [List.length_nil, Nat.sub_zero, List.drop_succ_cons]
      exact List.drop_left extra rest
    rw [hd]

/-- The general decoder on a zero-entry Type section with non-empty
padding: the condition is logged, the padding drained, and decoding
continues with no error. -/
theorem genReadSection_typePad (pad rest : List Nat)
    (hne : pad ≠ []) (hlt : pad.length + 1 < 128) :
    genReadSection none (1 :: (pad.length + 1) :: 0 :: (pad ++ rest)) =
      .next none (.types ⟨[]⟩) rest := by
  unfold genReadSection
  rw [readVarU7_single 1 _ (by omega)]
  dsimp only
  rw [readVarU32_single _ _ hlt]
  dsimp only
  have hview : (0 :: (pad ++ rest)).take (pad.length + 1) = 0 :: pad := by
    rw [show (0 :: (pad ++ rest)) = (0 :: pad) ++ rest from rfl]
    exact List.take_left' (by simp)
  rw [hview]
  norm_num
  rw [readTypeSection_zero ⟨[]⟩ pad]
  dsimp only
  have h1 : pad.length + 1 - pad.length = 1 := by omega
  rw [h1]
  have h2 : pad.length + 1 - 1 = pad.length := by omega
  rw [h2]
  rw [if_neg (fun hc => hne (List.length_eq_zero.mp hc))]
  rw [readRaw_exact pad]
  dsimp only
  have hd : (0 :: (pad ++ rest)).drop
      (pad.length + 1 - ([] : List Nat).length) = rest := by
    simp only [List.length_nil, Nat.sub_zero, List.drop_succ_cons]
    exact List.drop_left pad rest
  rw [hd]

/-- C8, counterexample: a Start section padded with one extra byte is
NOT rejected by the canonicalizer — its `readSection` handles Start in
the default branch, which drains the full declared length, so
`ReadValModule` accepts `inputStartPad`. -/
theorem c8_padded_start_accepted_counterexample :
    Except.isOk (ReadValModule (vmZero false) inputStartPad) = true ∧
    (vmOf false inputStartPad).startEntry = true := by
  exact ⟨rfl, rfl⟩

/-- C8, amended: for the section kinds the canonicalizer parses
structurally (Type=1, Import=2, Function=3, Export=7) a declared length
exceeding the bytes the sub-decoder consumed does NOT produce an error
return — the trailing-bytes branch calls `sec.ID()` on the local `sec`
interface that is declared but never assigned, so `readSection`, and
with it the whole `ReadValModule` decode, crashes with a nil-interface
panic; a padded Start section is instead drained in full by the default
branch and accepted with its bytes appended. The general decoder logs
the condition, drains the remainder, and continues with no error on
both a padded Start section and a padded zero-entry Type section. -/
theorem c8_trailing_bytes_policies :
    (∀ (vm : ValModule) (pad rest : List Nat) (id : Nat),
      pad ≠ [] → pad.length + 1 < 128 →
      id = 1 ∨ id = 2 ∨ id = 3 ∨ id = 7 →
      readSection vm (id :: (pad.length + 1) :: 0 :: (pad ++ rest)) =
        .error .crash) ∧
    (∀ (vm : ValModule) (sz : Nat) (pay rest : List Nat),
      vm.OnlyValidate = false → pay.length = sz → sz < 128 →
      readSection vm (8 :: sz :: (pay ++ rest)) =
        .ok ({ vm with startEntry := true, buff := vm.buff ++ 8 :: sz :: pay },
          rest, 8)) ∧
    (∀ (b : Nat) (extra rest : List Nat), b < 128 → extra.length + 1 < 128 →
      genReadSection none (8 :: (extra.length + 1) :: b :: (extra ++ rest)) =
        .next none (.start ⟨b⟩) rest) ∧
    (∀ (pad rest : List Nat), pad ≠ [] → pad.length + 1 < 128 →
      genReadSection none (1 :: (pad.length + 1) :: 0 :: (pad ++ rest)) =
        .next none (.types ⟨[]⟩) rest) ∧
    (∀ (vm : ValModule) (pad rest : List Nat) (id : Nat),
      pad ≠ [] → pad.length + 1 < 128 →
      id = 1 ∨ id = 2 ∨ id = 3 ∨ id = 7 →
      ReadValModule vm (hdrBytes ++ id :: (pad.length + 1) :: 0 :: (pad ++ rest)) =
        .error .crash) := by
  refine ⟨?_, ?_, ?_, ?_, ?_⟩
  · intro vm pad rest id hne hlt hid
    rcases hid with h | h | h | h <;> subst h
    · exact readSection_pad_crash vm _ 1 pad rest hne hlt (by omega)
        (subDecode_pad1 vm _ pad)
    · exact readSection_pad_crash vm _ 2 pad rest hne hlt (by omega)
        (subDecode_pad2 vm _ pad)
    · exact readSection_pad_crash vm _ 3 pad rest hne hlt (by omega)
        (subDecode_pad3 vm _ pad)
    · exact readSection_pad_crash vm _ 7 pad rest hne hlt (by omega)
        (subDecode_pad7 vm _ pad)
  · exact fun vm sz pay rest hov hsz hlt => readSection_start vm sz pay rest hov hsz hlt
  · exact fun b extra rest hb hlt => genReadSection_start b extra rest hb hlt
  · exact fun pad rest hne hlt => genReadSection_typePad pad rest hne hlt
  · intro vm pad rest id hne hlt hid
    rcases hid with h | h | h | h <;> subst h
    · exact readValModule_pad_crash vm _ 1 pad rest hne hlt (by omega)
        (subDecode_pad1 _ _ pad)
    · exact readValModule_pad_crash vm _ 2 pad rest hne hlt (by omega)
        (subDecode_pad2 _ _ pad)
    · exact readValModule_pad_crash vm _ 3 pad rest hne hlt (by omega)
        (subDecode_pad3 _ _ pad)
    · exact readValModule_pad_crash vm _ 7 pad rest hne hlt (by omega)
        (subDecode_pad7 _ _ pad)

/-- Witness for `c8_trailing_bytes_policies`: each conjunct instantiated
at a concrete input — a zero-entry Type section padded with one byte
crashes (both at `readSection` and through `ReadValModule`), a two-byte
Start payload is accepted and appended, and the general decoder
continues with no error on the padded Start and the padded Type
sections. -/
theorem c8_trailing_bytes_policies_witness :
    readSection (vmZero false) (1 :: (([0] : List Nat).length + 1) :: 0 :: ([0] ++ [])) =
      .error .crash ∧
    readSection (vmZero false) (8 :: 2 :: ([0, 0] ++ [])) =
      .ok ({ (vmZero false) with
             startEntry := true,
             buff := (vmZero false).buff ++ 8 :: 2 :: [0, 0] }, [], 8) ∧
    genReadSection none (8 :: (([0] : List Nat).length + 1) :: 0 :: ([0] ++ [])) =
      .next none (.start ⟨0⟩) [] ∧
    genReadSection none (1 :: (([0] : List Nat).length + 1) :: 0 :: ([0] ++ [])) =
      .next none (.types ⟨[]⟩) [] ∧
    ReadValModule (vmZero false)
        (hdrBytes ++ 1 :: (([0] : List Nat).length + 1) :: 0 :: ([0] ++ [])) =
      .error .crash :=
  ⟨c8_trailing_bytes_policies.1 (vmZero false) [0] [] 1 (by decide) (by decide) (by decide),
   c8_trailing_bytes_policies.2.1 (vmZero false) 2 [0, 0] [] (by decide) (by decide) (by decide),
   c8_trailing_bytes_policies.2.2.1 0 [0] [] (by decide) (by decide),
   c8_trailing_bytes_policies.2.2.2.1 [0] [] (by decide) (by decide),
   c8_trailing_bytes_policies.2.2.2.2 (vmZero false) [0] [] 1 (by decide) (by decide) (by decide)⟩

/-- C1, amended: a successful `readSection` on a Custom section
(identifier 0) never appends that section's bytes — the output buffer is
unchanged and only the custom flag is set; a Start section, however, is
flagged AND has its original bytes appended to the output buffer via the
`fallthrough` into the default append branch. -/
theorem c1_custom_omitted_start_appended :
    (∀ (vm : ValModule) (input : List Nat) (vm' : ValModule) (rest : List Nat),
      readSection vm input = .ok (vm', rest, 0) →
      vm'.buff = vm.buff ∧ vm'.bCustom = true) ∧
    (∀ (vm : ValModule) (sz : Nat) (pay rest : List Nat),
      vm.OnlyValidate = false → pay.length = sz → sz < 128 →
      readSection vm (8 :: sz :: (pay ++ rest)) =
        .ok ({ vm with startEntry := true, buff := vm.buff ++ 8 :: sz :: pay },
          rest, 8)) :=
  ⟨fun vm input vm' rest h => readSection_custom_buff vm input vm' rest h,
   fun vm sz pay rest hov hsz hlt => readSection_start vm sz pay rest hov hsz hlt⟩

/-- Witness for `c1_custom_omitted_start_appended`: an empty Custom
section leaves the buffer unchanged; the Start section `[8, 1, 0]` is
appended. -/
theorem c1_custom_omitted_start_appended_witness :
    (({ (vmZero false) with bCustom := true } : ValModule).buff =
        (vmZero false).buff ∧
      ({ (vmZero false) with bCustom := true } : ValModule).bCustom = true) ∧
    readSection (vmZero false) (8 :: 1 :: ([0] ++ [])) =
      .ok ({ (vmZero false) with
             startEntry := true,
             buff := (vmZero false).buff ++ 8 :: 1 :: [0] }, [], 8) :=
  ⟨c1_custom_omitted_start_appended.1 (vmZero false) [0, 0]
      { (vmZero false) with bCustom := true } [] (by rfl),
   c1_custom_omitted_start_appended.2 (vmZero false) 1 [0] []
      (by rfl) (by rfl) (by decide)⟩

/-- C6, counterexample: `inputTwoMain` is accepted and its re-emitted
Export section holds TWO entries named "main" — the "at most one entry
of each name" part of the claim is false (the filter breaks on a count
of two, not on distinct names). -/
theorem c6_two_main_counterexample :
    Except.isOk (ReadValModule (vmZero false) inputTwoMain) = true ∧
    (vmOf false inputTwoMain).exp.Exports =
      [⟨mainName, 0, 0⟩, ⟨mainName, 0, 0⟩] ∧
    Bytes (vmOf false inputTwoMain) =
      hdrBytes ++
        [7, 15, 2, 4, 109, 97, 105, 110, 0, 0, 4, 109, 97, 105, 110, 0, 0] := by
  exact ⟨rfl, rfl, rfl⟩

/-- C6, amended: every entry of the filtered export list that the
re-emitted Export section encodes has field "main" with function kind or
field "memory" with memory kind (the index is not constrained), and for
inputs in which the decoder processes at most one Export section the
list holds at most two entries — possibly two of the same name. -/
theorem c6_filtered_exports_shape (vm : ValModule) (input : List Nat)
    (vm' : ValModule) (cnt : Nat) (hnil : vm.exp.Exports = [])
    (h : ReadValModuleC vm input = .ok (vm', cnt)) :
    (∀ ep ∈ vm'.exp.Exports, expMatch ep = true) ∧
    (cnt ≤ 1 → vm'.exp.Exports.length ≤ 2) := by
  unfold ReadValModuleC at h
  split at h
  · exact absurd h (by simp)
  · split at h
    · exact absurd h (by simp)
    · constructor
      · exact aux_exp_match _ _ _ _ _ _ h (by simp [hnil])
      · intro hcnt
        rcases Nat.le_one_iff_eq_zero_or_eq_one.mp hcnt with h0 | h1
        · subst h0
          have he := aux_exp_eq _ _ _ _ _ _ h rfl
          rw [he]
          simp [hnil]
        · subst h1
          exact aux_exp_len _ _ _ _ _ _ h rfl (by simpa using hnil)

/-- Witness for `c6_filtered_exports_shape` at `inputOneExport` (one
Export section, count 1). -/
theorem c6_filtered_exports_shape_witness :
    (∀ ep ∈ (vmOf false inputOneExport).exp.Exports, expMatch ep = true) ∧
    (1 ≤ 1 → (vmOf false inputOneExport).exp.Exports.length ≤ 2) :=
  c6_filtered_exports_shape (vmZero false) inputOneExport
    (vmOf false inputOneExport) 1 rfl (by rfl)

/-- C10: starting from a fresh module, if the decode succeeds having
processed at most one Export section, the filtered export list holds at
most two entries; and the 64-entry bound of the re-encode step can never
be the failing condition for a list of at most 64 entries, so it is
unreachable for such inputs. -/
theorem c10_single_export_section_bound :
    (∀ (vm : ValModule) (input : List Nat) (vm' : ValModule) (cnt : Nat),
      vm.exp.Exports = [] → ReadValModuleC vm input = .ok (vm', cnt) →
      cnt ≤ 1 → vm'.exp.Exports.length ≤ 2) ∧
    (∀ (id : Nat) (exps : List ExportEntry), exps.length ≤ 64 →
      encodeExports id exps ≠ .error .exports) := by
  constructor
  · intro vm input vm' cnt hnil h hcnt
    unfold ReadValModuleC at h
    split at h
    · exact absurd h (by simp)
    · split at h
      · exact absurd h (by simp)
      · rcases Nat.le_one_iff_eq_zero_or_eq_one.mp hcnt with h0 | h1
        · subst h0
          have he := aux_exp_eq _ _ _ _ _ _ h rfl
          rw [he]
          simp [hnil]
        · subst h1
          exact aux_exp_len _ _ _ _ _ _ h rfl (by simpa using hnil)
  · intro id exps hlen hc
    unfold encodeExports at hc
    split at hc
    next er heq =>
      simp only [Except.error.injEq] at hc
      subst hc
      exact encodeExportEntries_no_exports exps heq
    next obuf heq =>
      split at hc
      · split at hc
        · omega
        · simp at hc
      · simp at hc

/-- Witness for `c10_single_export_section_bound` at `inputOneExport`
(one Export section) and a singleton encode. -/
theorem c10_single_export_section_bound_witness :
    (vmZero false).exp.Exports = [] ∧
    (vmOf false inputOneExport).exp.Exports.length ≤ 2 ∧
    encodeExports 7 [⟨mainName, 0, 0⟩] ≠ .error .exports :=
  ⟨rfl,
   c10_single_export_section_bound.1 (vmZero false) inputOneExport
     (vmOf false inputOneExport) 1 rfl (by rfl) (by decide),
   c10_single_export_section_bound.2 7 [⟨mainName, 0, 0⟩] (by decide)⟩

/-- C9: a `ValModule` produced by an error-free `ReadValModule` whose
Function section holds type index 1 with an empty Type section; the
"main" export resolves to that Function-section slot and `getFuncSig`
reaches the unchecked access `vm.typ.Types[tyIdx]` out of range — the
total embedding returns `oob` (Go panics), and `Validate` hits it. -/
theorem c9_getFuncSig_out_of_range :
    Except.isOk (ReadValModule (vmZero false) inputC9) = true ∧
    (vmOf false inputC9).fn.Types = [1] ∧
    (vmOf false inputC9).typ.Types.length = 0 ∧
    (vmOf false inputC9).imp.Imports.length = 0 ∧
    findExport (vmOf false inputC9) mainName = some ⟨mainName, 0, 0⟩ ∧
    getFuncSig (vmOf false inputC9) 0 = .oob ∧
    Validate (vmOf false inputC9) = .crashes := by
  exact ⟨rfl, rfl, rfl, rfl, rfl, rfl, rfl⟩

end Wasm
